/-
  Verification of the A2A message-protocol layer and coordinator workflow
  engine of the multi-agent research system.

  Shallow embedding of:
    - src/shared/a2a_models.py        (message envelope, content variants,
                                       discriminator-aware serialization)
    - src/agents/a2a_base_agent.py    (dispatch contract, state-store adapter)
    - src/agents/*_a2a.py             (the five pipeline agents' handlers)
    - src/coordinator/coordinator_a2a.py (workflow engine, continuation policy)

  JSON-compatible values are modelled by `JValue`; Python dicts by ordered
  association lists (`List (String × JValue)`) with Python `dict.update`
  semantics; Python exceptions by `Except String`; the Redis-backed task
  record by `Option TaskMap` (the record stored under key `task:<task_id>`,
  `none` when absent).  Numbers are modelled by `ℚ` (Python ints and floats;
  float rounding is not modelled).  The opaque LLM and web-search
  capabilities are modelled as oracles supplied as parameters.
-/
import Mathlib

namespace A2A

/-- JSON-compatible values, as exchanged over the wire and stored in the
task record. -/
inductive JValue where
  | null
  | bool (b : Bool)
  | num (q : ℚ)
  | str (s : String)
  | arr (xs : List JValue)
  | obj (fields : List (String × JValue))

mutual

def JValue.decEq : (a b : JValue) → Decidable (a = b)
  | .null, .null => isTrue rfl
  | .bool a, .bool b =>
    if h : a = b then isTrue (h ▸ rfl)
    else isFalse (fun e => h (by injection e))
  | .num a, .num b =>
    if h : a = b then isTrue (h ▸ rfl)
    else isFalse (fun e => h (by injection e))
  | .str a, .str b =>
    if h : a = b then isTrue (h ▸ rfl)
    else isFalse (fun e => h (by injection e))
  | .arr xs, .arr ys =>
    match JValue.decEqList xs ys with
    | isTrue h => isTrue (h ▸ rfl)
    | isFalse h => isFalse (fun e => h (by injection e))
  | .obj fs, .obj gs =>
    match JValue.decEqObj fs gs with
    | isTrue h => isTrue (h ▸ rfl)
    | isFalse h => isFalse (fun e => h (by injection e))
  | .null, .bool _ | .null, .num _ | .null, .str _ | .null, .arr _ | .null, .obj _
  | .bool _, .null | .bool _, .num _ | .bool _, .str _ | .bool _, .arr _ | .bool _, .obj _
  | .num _, .null | .num _, .bool _ | .num _, .str _ | .num _, .arr _ | .num _, .obj _
  | .str _, .null | .str _, .bool _ | .str _, .num _ | .str _, .arr _ | .str _, .obj _
  | .arr _, .null | .arr _, .bool _ | .arr _, .num _ | .arr _, .str _ | .arr _, .obj _
  | .obj _, .null | .obj _, .bool _ | .obj _, .num _ | .obj _, .str _ | .obj _, .arr _ =>
    isFalse (fun e => JValue.noConfusion e)

def JValue.decEqList : (xs ys : List JValue) → Decidable (xs = ys)
  | [], [] => isTrue rfl
  | [], _ :: _ => isFalse (fun e => List.noConfusion e)
  | _ :: _, [] => isFalse (fun e => List.noConfusion e)
  | x :: xs, y :: ys =>
    match JValue.decEq x y with
    | isFalse h => isFalse (fun e => h (by injection e))
    | isTrue h1 =>
      match JValue.decEqList xs ys with
      | isTrue h2 => isTrue (h1 ▸ h2 ▸ rfl)
      | isFalse h => isFalse (fun e => h (by injection e))

def JValue.decEqObj : (fs gs : List (String × JValue)) → Decidable (fs = gs)
  | [], [] => isTrue rfl
  | [], _ :: _ => isFalse (fun e => List.noConfusion e)
  | _ :: _, [] => isFalse (fun e => List.noConfusion e)
  | (k, v) :: fs, (l, w) :: gs =>
    if h1 : k = l then
      match JValue.decEq v w with
      | isFalse h => isFalse (fun e => by
          injection e with e1 _
          exact h (congrArg Prod.snd e1))
      | isTrue h2 =>
        match JValue.decEqObj fs gs with
        | isTrue h3 => isTrue (by rw [h1, h2, h3])
        | isFalse h => isFalse (fun e => h (by injection e))
    else isFalse (fun e => by
      injection e with e1 _
      exact h1 (congrArg Prod.fst e1))

end

instance : DecidableEq JValue := JValue.decEq

/-- A JSON object: an ordered association list, standing for a Python dict
(keys unique in all dicts the program builds). -/
abbrev JObj := List (String × JValue)

/-- Python truthiness of a JSON value (`if v:` / `v or w`). -/
def jTruthy : JValue → Bool
  | .null => false
  | .bool b => b
  | .num q => q != 0
  | .str s => s != ""
  | .arr xs => !xs.isEmpty
  | .obj fs => !fs.isEmpty

/-- `d.get(k)` on a Python dict. -/
def jGet (o : JObj) (k : String) : Option JValue :=
  o.lookup k

/-- `d.get(k, default)` on a Python dict. -/
def jGetD (o : JObj) (k : String) (d : JValue) : JValue :=
  (o.lookup k).getD d

/-- Python `dict.update`: keys present in `updates` take their new value
(in place), keys only in `updates` are appended in order, and every other
key keeps its previous value. -/
def dictUpdate (prev updates : JObj) : JObj :=
  prev.map (fun p => match updates.lookup p.1 with
    | some v => (p.1, v)
    | none => p)
  ++ updates.filter (fun u => !prev.any (fun p => p.1 == u.1))

/-! ## Data model (src/shared/a2a_models.py) -/

/-- `MessageStatus` enum. -/
inductive MessageStatus where
  | pending
  | processing
  | completed
  | failed
deriving DecidableEq

/-- The enum's string value, as serialized. -/
def MessageStatus.toStr : MessageStatus → String
  | .pending => "pending"
  | .processing => "processing"
  | .completed => "completed"
  | .failed => "failed"

/-- `A2ACapability`. -/
structure A2ACapability where
  name : String
  description : String
  parameters : JObj
  returns : JObj
deriving DecidableEq

/-- `A2AAgent` (agent identity and metadata). -/
structure A2AAgent where
  id : String
  name : String
  version : String
  capabilities : List A2ACapability
  metadata : JObj
deriving DecidableEq

/-- The closed tagged union of content payloads (`A2AContentUnion`): one
constructor per `A2AContent` subclass, the `@type` Literal discriminators
being the constructor tags.  `progress` carries pydantic's `ge=0.0, le=1.0`
bound as a subtype. -/
inductive A2AContentUnion where
  | actionRequest (action : String) (parameters context : JObj)
  | actionResponse (action : String) (result : JObj) (status : MessageStatus)
      (error : Option String) (metadata : JObj)
  | capabilityRequest
  | capabilityResponse (capabilities : List A2ACapability) (agent : A2AAgent)
  | errorContent (code : String) (message : String) (details : Option JObj)
  | statusUpdate (status : MessageStatus)
      (progress : Option {q : ℚ // 0 ≤ q ∧ q ≤ 1}) (message : Option String)
deriving DecidableEq

/-- The `@type` discriminator string of a content variant. -/
def contentTag : A2AContentUnion → String
  | .actionRequest .. => "ActionRequest"
  | .actionResponse .. => "ActionResponse"
  | .capabilityRequest => "CapabilityRequest"
  | .capabilityResponse .. => "CapabilityResponse"
  | .errorContent .. => "Error"
  | .statusUpdate .. => "StatusUpdate"

/-- The `A2AMessage` envelope (the constant `@type = "Message"` field is
kept implicit; the source's `to` field is `toAgent` here because `to` is a
reserved word in Lean). -/
structure A2AMessage where
  id : String
  toAgent : String
  from_agent : String
  content : A2AContentUnion
  reply_to : Option String
  timestamp : String
  metadata : JObj
deriving DecidableEq

/-! ## Encoding

`A2ACoordinator.send_message` serializes the envelope by hand (the
"WORKAROUND" in coordinator_a2a.py lines 51-61) and the content via
`content.model_dump_json(by_alias=True, exclude_none=True)`, which emits
the `@type` alias and omits model fields whose value is `None`. -/

def encodeCapability (c : A2ACapability) : JValue :=
  .obj [("name", .str c.name), ("description", .str c.description),
        ("parameters", .obj c.parameters), ("returns", .obj c.returns)]

def encodeAgent (a : A2AAgent) : JValue :=
  .obj [("id", .str a.id), ("name", .str a.name), ("version", .str a.version),
        ("capabilities", .arr (a.capabilities.map encodeCapability)),
        ("metadata", .obj a.metadata)]

/-- Content serialization: always emits the `@type` discriminator; drops
`None`-valued optional fields (`error`, `details`, `progress`, `message`). -/
def encodeContent : A2AContentUnion → JObj
  | .actionRequest a p c =>
      [("@type", .str "ActionRequest"), ("action", .str a),
       ("parameters", .obj p), ("context", .obj c)]
  | .actionResponse a r s e m =>
      [("@type", .str "ActionResponse"), ("action", .str a),
       ("result", .obj r), ("status", .str s.toStr)]
      ++ (match e with | some es => [("error", .str es)] | none => [])
      ++ [("metadata", .obj m)]
  | .capabilityRequest => [("@type", .str "CapabilityRequest")]
  | .capabilityResponse caps ag =>
      [("@type", .str "CapabilityResponse"),
       ("capabilities", .arr (caps.map encodeCapability)),
       ("agent", encodeAgent ag)]
  | .errorContent c m d =>
      [("@type", .str "Error"), ("code", .str c), ("message", .str m)]
      ++ (match d with | some dd => [("details", .obj dd)] | none => [])
  | .statusUpdate s p m =>
      [("@type", .str "StatusUpdate"), ("status", .str s.toStr)]
      ++ (match p with | some pq => [("progress", .num pq.1)] | none => [])
      ++ (match m with | some ms => [("message", .str ms)] | none => [])

/-- The `message_dict` built in `send_message`: all envelope fields, the
content serialized variant-aware, and `reply_to` only when truthy
(`if message.reply_to:` — so an empty string is dropped). -/
def encodeMessage (m : A2AMessage) : JObj :=
  [("@type", .str "Message"), ("id", .str m.id), ("to", .str m.toAgent),
   ("from", .str m.from_agent), ("content", .obj (encodeContent m.content)),
   ("timestamp", .str m.timestamp), ("metadata", .obj m.metadata)]
  ++ (match m.reply_to with
      | some r => if r = "" then [] else [("reply_to", .str r)]
      | none => [])

/-! ## Decoding

`A2AMessage(**data)`: pydantic envelope validation with the
`parse_content` `field_validator` dispatching on the raw payload's
discriminator. -/

/-- Decode failures.  `unknownContentType` is the
`ValueError("Unknown content type: ...")` raised by `parse_content`
(carrying the discriminator value found, `.null` when the field was
missing); `validation` covers every other pydantic `ValidationError`
(missing or ill-typed field), tagged with the offending field name. -/
inductive DecodeError where
  | unknownContentType (found : JValue)
  | validation (fieldName : String)
deriving DecidableEq

/-- A required `str` field. -/
def reqStr (o : JObj) (k : String) : Except DecodeError String :=
  match jGet o k with
  | some (.str s) => .ok s
  | _ => .error (.validation k)

/-- A `str` field with a default. -/
def strFieldD (o : JObj) (k : String) (d : String) : Except DecodeError String :=
  match jGet o k with
  | none => .ok d
  | some (.str s) => .ok s
  | some _ => .error (.validation k)

/-- A dict field with a default (`default_factory=dict`). -/
def objFieldD (o : JObj) (k : String) (d : JObj) : Except DecodeError JObj :=
  match jGet o k with
  | none => .ok d
  | some (.obj l) => .ok l
  | some _ => .error (.validation k)

/-- An `Optional[str]` field (absent or `null` become `None`). -/
def optStrField (o : JObj) (k : String) : Except DecodeError (Option String) :=
  match jGet o k with
  | none => .ok none
  | some .null => .ok none
  | some (.str s) => .ok (some s)
  | some _ => .error (.validation k)

/-- An `Optional[Dict]` field. -/
def optObjField (o : JObj) (k : String) : Except DecodeError (Option JObj) :=
  match jGet o k with
  | none => .ok none
  | some .null => .ok none
  | some (.obj l) => .ok (some l)
  | some _ => .error (.validation k)

/-- A required `MessageStatus` field. -/
def statusField (o : JObj) (k : String) : Except DecodeError MessageStatus :=
  match jGet o k with
  | some (.str "pending") => .ok .pending
  | some (.str "processing") => .ok .processing
  | some (.str "completed") => .ok .completed
  | some (.str "failed") => .ok .failed
  | _ => .error (.validation k)

def decodeCapability (v : JValue) : Except DecodeError A2ACapability :=
  match v with
  | .obj o => do
    let n ← reqStr o "name"
    let d ← reqStr o "description"
    let p ← objFieldD o "parameters" []
    let r ← objFieldD o "returns" []
    pure ⟨n, d, p, r⟩
  | _ => .error (.validation "capability")

def decodeCapabilities : List JValue → Except DecodeError (List A2ACapability)
  | [] => .ok []
  | v :: vs => do
    let c ← decodeCapability v
    let cs ← decodeCapabilities vs
    pure (c :: cs)

def decodeAgent (v : JValue) : Except DecodeError A2AAgent :=
  match v with
  | .obj o => do
    let i ← reqStr o "id"
    let n ← reqStr o "name"
    let ver ← strFieldD o "version" "1.0.0"
    let caps ← match jGet o "capabilities" with
      | none => Except.ok []
      | some (.arr vs) => decodeCapabilities vs
      | some _ => Except.error (.validation "capabilities")
    let md ← objFieldD o "metadata" []
    pure ⟨i, n, ver, caps, md⟩
  | _ => .error (.validation "agent")

/-- `content_type = v.get('@type') or v.get('type')` in `parse_content`
(Python `or` falls through whenever the first value is falsy). -/
def contentDiscriminator (o : JObj) : JValue :=
  let a := jGetD o "@type" .null
  if jTruthy a then a else jGetD o "type" .null

/-- Validation of the `@type` Literal when the alias key is present (the
variant constructor receives the raw `@type` entry and rejects a value
other than its own tag). -/
def checkTag (o : JObj) (tag : String) : Except DecodeError Unit :=
  match jGet o "@type" with
  | none => .ok ()
  | some (.str s) => if s = tag then .ok () else .error (.validation "@type")
  | some _ => .error (.validation "@type")

/-- `parse_content` composed with the chosen variant's pydantic field
validation: dispatch on the discriminator read from the raw payload; an
unrecognized (or missing, hence `.null`) discriminator raises the
unknown-content-type error. -/
def decodeContent (v : JValue) : Except DecodeError A2AContentUnion :=
  match v with
  | .obj o =>
    if contentDiscriminator o = .str "ActionRequest" then do
      checkTag o "ActionRequest"
      let a ← reqStr o "action"
      let p ← objFieldD o "parameters" []
      let c ← objFieldD o "context" []
      pure (.actionRequest a p c)
    else if contentDiscriminator o = .str "ActionResponse" then do
      checkTag o "ActionResponse"
      let a ← reqStr o "action"
      let r ← match jGet o "result" with
        | some (.obj l) => Except.ok l
        | _ => Except.error (.validation "result")
      let s ← statusField o "status"
      let e ← optStrField o "error"
      let md ← objFieldD o "metadata" []
      pure (.actionResponse a r s e md)
    else if contentDiscriminator o = .str "CapabilityRequest" then do
      checkTag o "CapabilityRequest"
      pure .capabilityRequest
    else if contentDiscriminator o = .str "CapabilityResponse" then do
      checkTag o "CapabilityResponse"
      let caps ← match jGet o "capabilities" with
        | some (.arr vs) => decodeCapabilities vs
        | _ => Except.error (.validation "capabilities")
      let ag ← match jGet o "agent" with
        | some av => decodeAgent av
        | none => Except.error (.validation "agent")
      pure (.capabilityResponse caps ag)
    else if contentDiscriminator o = .str "Error" then do
      checkTag o "Error"
      let c ← reqStr o "code"
      let m ← reqStr o "message"
      let d ← optObjField o "details"
      pure (.errorContent c m d)
    else if contentDiscriminator o = .str "StatusUpdate" then do
      checkTag o "StatusUpdate"
      let s ← statusField o "status"
      let p ← match jGet o "progress" with
        | none => Except.ok none
        | some .null => Except.ok none
        | some (.num q) =>
          if h : 0 ≤ q ∧ q ≤ 1 then Except.ok (some ⟨q, h⟩)
          else Except.error (.validation "progress")
        | some _ => Except.error (.validation "progress")
      let m ← optStrField o "message"
      pure (.statusUpdate s p m)
    else .error (.unknownContentType (contentDiscriminator o))
  | _ => .error (.validation "content")

/-- The envelope-level `@type` Literal (default `"Message"` when absent,
alias preferred over the field name). -/
def checkEnvelopeTag (raw : JObj) : Except DecodeError Unit :=
  match (jGet raw "@type").orElse (fun _ => jGet raw "type") with
  | none => .ok ()
  | some (.str "Message") => .ok ()
  | some _ => .error (.validation "@type")

/-- `A2AMessage(**data)`.  `now` is the value `datetime.utcnow().isoformat()`
would supply if `timestamp` were absent. -/
def decodeMessage (now : String) (raw : JObj) : Except DecodeError A2AMessage := do
  checkEnvelopeTag raw
  let i ← reqStr raw "id"
  let t ← reqStr raw "to"
  let f ← match (jGet raw "from").orElse (fun _ => jGet raw "from_agent") with
    | some (.str s) => Except.ok s
    | _ => Except.error (.validation "from")
  let cv ← match jGet raw "content" with
    | some v => Except.ok v
    | none => Except.error (DecodeError.validation "content")
  let c ← decodeContent cv
  let r ← optStrField raw "reply_to"
  let ts ← strFieldD raw "timestamp" now
  let md ← objFieldD raw "metadata" []
  pure ⟨i, t, f, c, r, ts, md⟩

/-! ## State store adapter

Both `A2ACoordinator` and `A2ABaseAgent` talk to the same Redis record
`task:<task_id>`.  The whole pipeline addresses a single task, so the
store is modelled as that one record: `none` when the key is absent. -/

/-- The persisted task record. -/
abbrev TaskMap := JObj

/-- `update_state` of both `A2ACoordinator` (coordinator_a2a.py 154-158)
and `A2ABaseAgent` (a2a_base_agent.py 102-106): read the record (`{}` when
absent), `state.update(updates)`, write the result back. -/
def update_state (store : Option TaskMap) (updates : TaskMap) : Option TaskMap :=
  some (dictUpdate (store.getD []) updates)

/-- Lookup of a field of the stored record (`none` when the record or the
key is absent). -/
def storeLookup (store : Option TaskMap) (k : String) : Option JValue :=
  (store.getD []).lookup k

/-- `A2ABaseAgent.add_log`: read the record, append an entry built from the
agent identity plus `data` to `agent_logs`, write the whole record back.
`.append` on a non-list stored value raises. -/
def add_log (agentName agentId action now : String) (data : JObj)
    (store : Option TaskMap) : Except String (Option TaskMap) :=
  let st := store.getD []
  match jGetD st "agent_logs" (.arr []) with
  | .arr logs =>
    .ok (some (dictUpdate st [("agent_logs", .arr (logs ++
      [.obj (dictUpdate
        [("agent", .str agentName), ("agent_id", .str agentId),
         ("action", .str action), ("timestamp", .str now)] data)]))]))
  | _ => .error "AttributeError: append"

/-! ## Python value coercions used by the handlers and the coordinator -/

/-- A stored value used as a Python number (`bool` coerces to `0`/`1`; any
other non-number raises a `TypeError` in arithmetic or an ordered
comparison — heterogeneous comparisons such as `str >= str` are not
modelled, no claim exercises them). -/
def asNum : JValue → Except String ℚ
  | .num q => .ok q
  | .bool b => .ok (if b then 1 else 0)
  | _ => .error "TypeError: unsupported operand type"

/-- A stored value iterated / concatenated as a Python list. -/
def asArr : JValue → Except String (List JValue)
  | .arr xs => .ok xs
  | _ => .error "TypeError: expected a list"

/-- Python `len`. -/
def asLen : JValue → Except String Nat
  | .arr xs => .ok xs.length
  | .obj fs => .ok fs.length
  | .str s => .ok s.length
  | _ => .error "TypeError: object has no len"

/-- Rendering of a value interpolated into an error or prompt string
(`str(x)`; only the string case is exercised by the pipeline). -/
def jDisplay : JValue → String
  | .str s => s
  | _ => "<value>"

/-- The LLM-output post-processing shared by question_architect (k = 3) and
data_analyst (k = 5):
`[x.strip().lstrip('0123456789. ') for x in response.strip().split('\n') if x.strip()][:k]`. -/
def parseNumberedLines (s : String) (k : Nat) : List String :=
  (((s.trim.splitOn "\n").filter (fun q => q.trim ≠ "")).map
    (fun q => ((q.trim.toList.dropWhile
      (fun ch => ch.isDigit || ch = '.' || ch = ' ')).asString))).take k

/-! ## Agent dispatch contract (src/agents/a2a_base_agent.py) -/

/-- The outcome of an action handler: a result dict or a raised exception
(modelled by its message string), together with the store as the handler
left it. -/
abbrev HandlerResult := Except String JObj × Option TaskMap

/-- One agent service: identity plus its `handle_action`
(action, parameters, context, store). -/
structure AgentSpec where
  agent_id : String
  name : String
  role : String
  expertise : String
  temperature : ℚ
  capabilities : List A2ACapability
  handle : String → JObj → JObj → Option TaskMap → HandlerResult

/-- The `A2AAgent` info built in `_handle_capability_request`. -/
def mkAgentInfo (a : AgentSpec) : A2AAgent :=
  { id := a.agent_id, name := a.name, version := "1.0.0",
    capabilities := a.capabilities,
    metadata := [("role", .str a.role), ("expertise", .str a.expertise),
                 ("temperature", .num a.temperature)] }

/-- `A2ABaseAgent._handle_capability_request`: a `CapabilityResponse`
addressed to the sender, `reply_to` the inbound id.  `fresh` is the
generated `uuid4` and `now` the timestamp default. -/
def handleCapabilityRequest (a : AgentSpec) (fresh now : String)
    (m : A2AMessage) : A2AMessage :=
  { id := fresh, toAgent := m.from_agent, from_agent := a.agent_id,
    content := .capabilityResponse a.capabilities (mkAgentInfo a),
    reply_to := some m.id, timestamp := now, metadata := [] }

/-- `A2ABaseAgent._handle_action_request`: run the handler inside
`try/except`; success becomes `ActionResponse{status=completed}`, any
exception becomes `ActionResponse{status=failed, error=str(e), result={}}`. -/
def handleActionRequest (a : AgentSpec) (fresh now : String) (m : A2AMessage)
    (action : String) (params ctx : JObj) (store : Option TaskMap) :
    A2AMessage × Option TaskMap :=
  match a.handle action params ctx store with
  | (.ok result, st) =>
    ({ id := fresh, toAgent := m.from_agent, from_agent := a.agent_id,
       content := .actionResponse action result .completed none [],
       reply_to := some m.id, timestamp := now, metadata := [] }, st)
  | (.error e, st) =>
    ({ id := fresh, toAgent := m.from_agent, from_agent := a.agent_id,
       content := .actionResponse action [] .failed (some e) [],
       reply_to := some m.id, timestamp := now, metadata := [] }, st)

/-- `A2ABaseAgent.process_message`: dispatch on the decoded content
variant; anything other than a capability or action request gets the
`UNSUPPORTED_MESSAGE_TYPE` error envelope (the Python message interpolates
`type(message.content)`; abbreviated here to the variant tag). -/
def process_message (a : AgentSpec) (fresh now : String) (m : A2AMessage)
    (store : Option TaskMap) : A2AMessage × Option TaskMap :=
  match m.content with
  | .capabilityRequest => (handleCapabilityRequest a fresh now m, store)
  | .actionRequest act p ctx => handleActionRequest a fresh now m act p ctx store
  | _ =>
    ({ id := fresh, toAgent := m.from_agent, from_agent := a.agent_id,
       content := .errorContent "UNSUPPORTED_MESSAGE_TYPE"
         ("Unsupported message content type: " ++ contentTag m.content) none,
       reply_to := some m.id, timestamp := now, metadata := [] }, store)

/-- The `POST /message` endpoint: FastAPI validates the request body
against `A2AMessage` before `receive_message` runs, so a payload that
fails to decode is answered by the framework's validation-error response
(modelled `.error`) and `process_message` never runs. -/
def receive_message (a : AgentSpec) (fresh now : String) (raw : JObj)
    (store : Option TaskMap) :
    Except DecodeError (A2AMessage × Option TaskMap) := do
  let m ← decodeMessage now raw
  pure (process_message a fresh now m store)

/-! ## The five pipeline agents (src/agents/{topic_refiner, question_architect,
search_strategist, data_analyst, report_writer}_a2a.py)

`llmOut` is the opaque completion `invoke_llm` returns for the handler's
single LLM call; `search` is the opaque `DDGS().text` capability per query
(`none` standing for the exception the per-question `try` swallows).  The
prompt strings are not modelled (the oracle output does not depend on them
here), and `task_id` only undergoes its truthiness check since the store
already denotes the record that id addresses. -/

/-- `task_id = parameters.get("task_id"); if not task_id: raise` followed
by `state = self.get_state(task_id); if not state: raise` (an absent record
and an empty dict are both falsy). -/
def requireTask (params : JObj) (store : Option TaskMap) :
    Except String TaskMap :=
  let tid := jGetD params "task_id" .null
  if !jTruthy tid then .error "task_id is required"
  else match store with
    | none => .error ("Task not found: " ++ jDisplay tid)
    | some st =>
      if st.isEmpty then .error ("Task not found: " ++ jDisplay tid)
      else .ok st

/-- `TopicRefinerAgent._refine_topic`. -/
def refine_topic (llmOut : String) (params : JObj) (now : String)
    (store : Option TaskMap) : HandlerResult :=
  match requireTask params store with
  | .error e => (.error e, store)
  | .ok st =>
    let topic := jGetD st "topic" (.str "")
    let refined := llmOut.trim
    let store1 := update_state store [("topic", .str refined),
      ("status", .str "topic_refined"),
      ("current_agent", .str "Dr. Topic Refiner")]
    match add_log "Dr. Topic Refiner" "agent://topic-refiner" "refined_topic"
        now [("input", topic), ("output", .str refined)] store1 with
    | .error e => (.error e, store1)
    | .ok store2 =>
      (.ok [("refined_topic", .str refined), ("original_topic", topic)], store2)

/-- `QuestionArchitectAgent._generate_questions`. -/
def generate_questions (llmOut : String) (params : JObj) (now : String)
    (store : Option TaskMap) : HandlerResult :=
  match requireTask params store with
  | .error e => (.error e, store)
  | .ok st =>
    let questions := parseNumberedLines llmOut 3
    match asArr (jGetD st "research_questions" (.arr [])) with
    | .error e => (.error e, store)
    | .ok prevQ =>
      let allQ := prevQ ++ questions.map .str
      let store1 := update_state store [("research_questions", .arr allQ),
        ("status", .str "questions_generated"),
        ("current_agent", .str "Prof. Question Architect")]
      match add_log "Prof. Question Architect" "agent://question-architect"
          "generated_questions" now
          [("count", .num questions.length),
           ("questions", .arr (questions.map .str))] store1 with
      | .error e => (.error e, store1)
      | .ok store2 =>
        (.ok [("questions", .arr (questions.map .str)),
              ("count", .num questions.length),
              ("total_questions", .num allQ.length)], store2)

/-- The accumulator of `_execute_search`'s per-question loop. -/
structure SearchAcc where
  results : List JValue
  queries : List JValue
  newCount : Nat
  processed : Nat

/-- One turn of `for question in research_questions`: skip questions
already in `search_queries` (the list as mutated so far); a search
exception (`none`) is caught and the question is neither counted nor
recorded. -/
def searchQuestionStep (search : String → Option (List (String × String)))
    (acc : SearchAcc) (q : JValue) : SearchAcc :=
  if acc.queries.contains q then acc
  else match search (jDisplay q) with
    | none => acc
    | some rs =>
      { results := acc.results ++
          rs.map (fun r => .str ("**" ++ r.1 ++ "**\n" ++ r.2)),
        queries := acc.queries ++ [q],
        newCount := acc.newCount + rs.length,
        processed := acc.processed + 1 }

/-- `SearchStrategistAgent._execute_search`: run the searches, then write
`search_results`, `search_queries`, `iteration = state.get("iteration", 0) + 1`,
`status`, `current_agent`. -/
def execute_search (search : String → Option (List (String × String)))
    (params : JObj) (now : String) (store : Option TaskMap) : HandlerResult :=
  match requireTask params store with
  | .error e => (.error e, store)
  | .ok st =>
    match asArr (jGetD st "search_results" (.arr [])) with
    | .error e => (.error e, store)
    | .ok results0 =>
      match asArr (jGetD st "search_queries" (.arr [])) with
      | .error e => (.error e, store)
      | .ok queries0 =>
        match asArr (jGetD st "research_questions" (.arr [])) with
        | .error e => (.error e, store)
        | .ok questions =>
          let acc := questions.foldl (searchQuestionStep search)
            ⟨results0, queries0, 0, 0⟩
          match asNum (jGetD st "iteration" (.num 0)) with
          | .error e => (.error e, store)
          | .ok i =>
            let store1 := update_state store
              [("search_results", .arr acc.results),
               ("search_queries", .arr acc.queries),
               ("iteration", .num (i + 1)),
               ("status", .str "search_completed"),
               ("current_agent", .str "Agent Search Strategist")]
            match add_log "Agent Search Strategist" "agent://search-strategist"
                "executed_searches" now
                [("queries_processed", .num acc.processed),
                 ("new_results", .num acc.newCount)] store1 with
            | .error e => (.error e, store1)
            | .ok store2 =>
              (.ok [("results_count", .num acc.newCount),
                    ("queries_processed", .num acc.processed),
                    ("total_results", .num acc.results.length)], store2)

/-- `SearchStrategistAgent._optimize_query` (no state writes). -/
def optimize_query (llmOut : String) (params : JObj)
    (store : Option TaskMap) : HandlerResult :=
  let query := jGetD params "query" .null
  if !jTruthy query then (.error "query is required", store)
  else (.ok [("optimized_query", .str llmOut.trim),
             ("original_query", query)], store)

/-- `DataAnalystAgent._analyze_results`. -/
def analyze_results (llmOut : String) (params : JObj) (now : String)
    (store : Option TaskMap) : HandlerResult :=
  match requireTask params store with
  | .error e => (.error e, store)
  | .ok st =>
    match asArr (jGetD st "search_results" (.arr [])) with
    | .error e => (.error e, store)
    | .ok results =>
      let findingsQuality : List String × ℚ :=
        if results.isEmpty then (["No data available for analysis"], 0)
        else
          let fs := parseNumberedLines llmOut 5
          (fs, min ((fs.length : ℚ) * 0.15 + (results.length : ℚ) * 0.02) 1)
      let findings := findingsQuality.1
      let quality := findingsQuality.2
      match asArr (jGetD st "key_findings" (.arr [])) with
      | .error e => (.error e, store)
      | .ok prevF =>
        let allF := prevF ++ findings.map .str
        let store1 := update_state store [("key_findings", .arr allF),
          ("quality_score", .num quality),
          ("status", .str "analysis_completed"),
          ("current_agent", .str "Dr. Data Analyst")]
        match add_log "Dr. Data Analyst" "agent://data-analyst" "analyzed_data"
            now [("findings_extracted", .num findings.length),
                 ("quality_score", .num quality)] store1 with
        | .error e => (.error e, store1)
        | .ok store2 =>
          (.ok [("findings", .arr (findings.map .str)),
                ("quality_score", .num quality),
                ("findings_count", .num findings.length),
                ("total_findings", .num allF.length)], store2)

/-- The metadata footer `_generate_report` appends (numeric and timestamp
formatting abbreviated via `toString`; no claim reads the report text). -/
def reportFooter (st : TaskMap) (now : String)
    (qs fs srs : List JValue) (quality : ℚ) : String :=
  "\n\n---\n## Research Metadata\n\n" ++
  "**Research Protocol:** A2A Multi-Agent System\n\n" ++
  "**Participating Agents:**\n" ++
  "- Dr. Topic Refiner (Topic Analysis)\n" ++
  "- Prof. Question Architect (Question Design)\n" ++
  "- Agent Search Strategist (Information Retrieval)\n" ++
  "- Dr. Data Analyst (Analysis & Synthesis)\n" ++
  "- Dr. Report Writer (Report Generation)\n\n" ++
  "**Research Statistics:**\n" ++
  "- Original Topic: " ++ jDisplay (jGetD st "original_topic" (.str "N/A")) ++ "\n" ++
  "- Refined Topic: " ++ jDisplay (jGetD st "topic" (.str "N/A")) ++ "\n" ++
  "- Questions Generated: " ++ toString qs.length ++ "\n" ++
  "- Sources Consulted: " ++ toString srs.length ++ "\n" ++
  "- Key Findings: " ++ toString fs.length ++ "\n" ++
  "- Research Iterations: " ++ jDisplay (jGetD st "iteration" (.num 0)) ++ "\n" ++
  "- Quality Score: " ++ toString quality ++ "/1.00\n" ++
  "- Generated: " ++ now ++ "\n" ++
  "- Protocol: A2A v1.0\n"

/-- `ReportWriterAgent._generate_report`: the prompt and footer iterate
`research_questions`/`key_findings`, take `len(search_results)` and format
`quality_score` with `:.2f`, so those reads raise on ill-typed values
before any write; then write `final_report`, `status`, `current_agent`. -/
def generate_report (llmOut : String) (params : JObj) (now : String)
    (store : Option TaskMap) : HandlerResult :=
  match requireTask params store with
  | .error e => (.error e, store)
  | .ok st =>
    match asArr (jGetD st "research_questions" (.arr [])) with
    | .error e => (.error e, store)
    | .ok qs =>
      match asArr (jGetD st "key_findings" (.arr [])) with
      | .error e => (.error e, store)
      | .ok fs =>
        match asArr (jGetD st "search_results" (.arr [])) with
        | .error e => (.error e, store)
        | .ok srs =>
          match asNum (jGetD st "quality_score" (.num 0)) with
          | .error e => (.error e, store)
          | .ok quality =>
            let report := llmOut ++ reportFooter st now qs fs srs quality
            let store1 := update_state store
              [("final_report", .str report),
               ("status", .str "report_completed"),
               ("current_agent", .str "Dr. Report Writer")]
            match add_log "Dr. Report Writer" "agent://report-writer"
                "generated_report" now
                [("report_length", .num report.length)] store1 with
            | .error e => (.error e, store1)
            | .ok store2 =>
              (.ok [("report", .str report),
                    ("report_length", .num report.length)], store2)

/-! ### `handle_action` dispatch tables and agent specs
(the static capability-schema dicts of `get_capabilities` are not
reproduced: no claim reads them, and nothing below consumes
`AgentSpec.capabilities` for these five concrete agents). -/

def topicRefinerAgent (llmOut now : String) : AgentSpec :=
  { agent_id := "agent://topic-refiner", name := "Dr. Topic Refiner",
    role := "Research Topic Specialist",
    expertise := "Clarifying research objectives and scoping studies",
    temperature := 0.5, capabilities := [],
    handle := fun action params _ store =>
      if action = "refine_topic" then refine_topic llmOut params now store
      else (.error ("Unknown action: " ++ action), store) }

def questionArchitectAgent (llmOut now : String) : AgentSpec :=
  { agent_id := "agent://question-architect", name := "Prof. Question Architect",
    role := "Research Question Designer",
    expertise := "Formulating precise, investigable research questions",
    temperature := 0.7, capabilities := [],
    handle := fun action params _ store =>
      if action = "generate_questions" then
        generate_questions llmOut params now store
      else (.error ("Unknown action: " ++ action), store) }

def searchStrategistAgent (llmOut : String)
    (search : String → Option (List (String × String))) (now : String) :
    AgentSpec :=
  { agent_id := "agent://search-strategist", name := "Agent Search Strategist",
    role := "Information Retrieval Specialist",
    expertise := "Designing search strategies and executing queries",
    temperature := 0.3, capabilities := [],
    handle := fun action params _ store =>
      if action = "execute_search" then execute_search search params now store
      else if action = "optimize_query" then optimize_query llmOut params store
      else (.error ("Unknown action: " ++ action), store) }

def dataAnalystAgent (llmOut now : String) : AgentSpec :=
  { agent_id := "agent://data-analyst", name := "Dr. Data Analyst",
    role := "Research Data Analyst",
    expertise := "Extracting insights and identifying patterns in research data",
    temperature := 0.4, capabilities := [],
    handle := fun action params _ store =>
      if action = "analyze_results" then analyze_results llmOut params now store
      else (.error ("Unknown action: " ++ action), store) }

def reportWriterAgent (llmOut now : String) : AgentSpec :=
  { agent_id := "agent://report-writer", name := "Dr. Report Writer",
    role := "Research Report Specialist",
    expertise := "Synthesizing findings into clear, structured reports",
    temperature := 0.6, capabilities := [],
    handle := fun action params _ store =>
      if action = "generate_report" then generate_report llmOut params now store
      else (.error ("Unknown action: " ++ action), store) }

/-! ## Coordinator workflow engine (src/coordinator/coordinator_a2a.py) -/

/-- `A2ACoordinator.should_continue`: read the record fresh and decide
`"finalize"`/`"continue"`; a missing record raises (`state.get` on `None`). -/
def should_continue (store : Option TaskMap) : Except String String :=
  match store with
  | none => .error "AttributeError: NoneType object has no attribute get"
  | some st => do
    let i ← asNum (jGetD st "iteration" (.num 0))
    let mi ← asNum (jGetD st "max_iterations" (.num 2))
    if mi ≤ i then pure "finalize"
    else do
      let q ← asNum (jGetD st "quality_score" (.num 0))
      if (0.8 : ℚ) ≤ q then pure "finalize"
      else do
        let n ← asLen (jGetD st "key_findings" (.arr []))
        if 10 ≤ n then pure "finalize"
        else pure "continue"

/-- `A2ACoordinator.call_agent_action` response handling (lines 110-145):
the isinstance chain over the response envelope's content.  A completed
`ActionResponse` yields its result; a non-completed one raises with the
agent's error (`or "Action failed"` on a falsy error); an `Error` content
raises; the `__dict__` fallback makes a completed `StatusUpdate` yield `{}`
and a non-completed one raise with the default text; everything else falls
through to the final "Unexpected response type" raise. -/
def checkActionResponse (action : String) :
    A2AContentUnion → Except String JObj
  | .actionResponse _ result status error _ =>
    if status = .completed then .ok result
    else
      let e := match error with
        | some es => if es = "" then "Action failed" else es
        | none => "Action failed"
      .error ("Action " ++ action ++ " failed: " ++ e)
  | .errorContent _ message _ => .error ("Agent error: " ++ message)
  | .statusUpdate status _ _ =>
    if status = .completed then .ok []
    else .error ("Action " ++ action ++ " failed: Action failed")
  | _ => .error "Unexpected response type"

/-- An observable event of one workflow run: a coordinator state-store
write, an agent call (with the response content received), or a
`should_continue` evaluation (with the store it read). -/
inductive Event where
  | write (updates : TaskMap)
  | call (agent : String) (action : String) (response : A2AContentUnion)
  | decide (decision : String) (snapshot : Option TaskMap)

/-- The agent services' behavior: call `n` (the coordinator's `n`-th send
of the run) addressed to `agent` with an action and parameters observes
the current store and returns the response content plus the store as the
agent left it. -/
abbrev Env :=
  Nat → String → String → JObj → Option TaskMap → A2AContentUnion × Option TaskMap

/-- Coordinator-side run state: the store, the event trace so far, and the
number of calls issued. -/
structure WS where
  store : Option TaskMap
  events : List Event
  calls : Nat

/-- A coordinator `update_state` call. -/
def doUpdate (updates : TaskMap) (w : WS) : WS :=
  { w with store := update_state w.store updates,
           events := w.events ++ [.write updates] }

/-- One pipeline step: write `status`/`current_agent`, then
`call_agent_action` (build the `ActionRequest`, send it, check the
response). -/
def doStep (env : Env) (agent action : String) (params : JObj)
    (statusLabel agentLabel : String) (w : WS) : WS × Except String JObj :=
  let w1 := doUpdate [("status", .str statusLabel),
                      ("current_agent", .str agentLabel)] w
  let ra := env w1.calls agent action params w1.store
  let w2 : WS := { store := ra.2,
                   events := w1.events ++ [.call agent action ra.1],
                   calls := w1.calls + 1 }
  (w2, checkActionResponse action ra.1)

/-- Sequencing with exception propagation (a raise aborts the `try` body). -/
def bindStep {α β : Type} (f : WS → WS × Except String α)
    (g : α → WS → WS × Except String β) (w : WS) : WS × Except String β :=
  match f w with
  | (w', .error e) => (w', .error e)
  | (w', .ok a) => g a w'

/-- The `should_continue` evaluation after an analysis step. -/
def decideStep (w : WS) : WS × Except String String :=
  match should_continue w.store with
  | .error e => (w, .error e)
  | .ok dec =>
    ({ w with events := w.events ++ [.decide dec w.store] }, .ok dec)

/-- One iteration body of the research loop: question architect, search
strategist, data analyst (coordinator_a2a.py lines 203-244). -/
def loopBody (env : Env) (tid : String) : WS → WS × Except String Unit :=
  bindStep (doStep env "agent://question-architect" "generate_questions"
    [("task_id", .str tid)] "generating_questions" "Prof. Question Architect")
    (fun _ =>
  bindStep (doStep env "agent://search-strategist" "execute_search"
    [("task_id", .str tid), ("max_results", .num 2)]
    "searching" "Agent Search Strategist")
    (fun _ =>
  bindStep (doStep env "agent://data-analyst" "analyze_results"
    [("task_id", .str tid)] "analyzing" "Dr. Data Analyst")
    (fun _ w => (w, .ok ()))))

/-- The `while iteration < max_iterations` loop.  `fuel` is
`max_iterations - iteration` rounded up at entry, so running out of fuel
coincides with the guard turning false (`max_iterations` was read once
from the snapshot taken at workflow start). -/
def researchLoop (env : Env) (tid : String) : Nat → WS → WS × Except String Unit
  | 0, w => (w, .ok ())
  | fuel + 1, w =>
    (bindStep (loopBody env tid) (fun _ =>
      bindStep decideStep (fun dec w' =>
        if dec = "finalize" then (w', .ok ())
        else researchLoop env tid fuel w'))) w

/-- The `try` body of `A2ACoordinator.run_workflow` as a step function:
the `state` snapshot (`store0`) is taken at line 179 but first
dereferenced at line 198 (after the topic-refiner step), so a missing
record raises only there. -/
def wfStep (env : Env) (tid : String) (store0 : Option TaskMap) :
    WS → WS × Except String Unit :=
  bindStep (doStep env "agent://topic-refiner" "refine_topic"
      [("task_id", .str tid)] "refining_topic" "Dr. Topic Refiner")
    (fun _ w =>
      match store0 with
      | none => (w, .error "AttributeError: NoneType object has no attribute get")
      | some st0 =>
        match asNum (jGetD st0 "max_iterations" (.num 2)) with
        | .error e => (w, .error e)
        | .ok mi =>
          (bindStep (researchLoop env tid (Int.toNat ⌈mi⌉)) (fun _ =>
            bindStep (doStep env "agent://report-writer" "generate_report"
              [("task_id", .str tid)] "generating_report" "Dr. Report Writer")
              (fun _ w' => (doUpdate [("status", .str "completed")] w', .ok ()))))
            w)

/-- The `try` body, run from the fresh coordinator state. -/
def workflowBody (env : Env) (tid : String) (store0 : Option TaskMap) :
    WS × Except String Unit :=
  wfStep env tid store0 { store := store0, events := [], calls := 0 }

/-- `A2ACoordinator.run_workflow`: run the `try` body; the `except` clause
writes `status="failed"` and `error="Workflow error: " + str(e)`.  The
Bool is the `success` flag of the returned dict. -/
def run_workflow (env : Env) (tid : String) (store0 : Option TaskMap) :
    WS × Bool :=
  match workflowBody env tid store0 with
  | (w, .ok ()) => (w, true)
  | (w, .error e) =>
    (doUpdate [("status", .str "failed"),
               ("error", .str ("Workflow error: " ++ e))] w, false)

/-- The initial record `POST /start_research` writes (lines 315-334). -/
def initial_state (tid topic : String) (mi : ℚ) : TaskMap :=
  [("task_id", .str tid), ("original_topic", .str topic),
   ("topic", .str topic), ("research_questions", .arr []),
   ("search_queries", .arr []), ("search_results", .arr []),
   ("key_findings", .arr []), ("iteration", .num 0),
   ("max_iterations", .num mi), ("quality_score", .num 0),
   ("final_report", .str ""), ("status", .str "initialized"),
   ("current_agent", .str ""), ("agent_logs", .arr []),
   ("error", .null), ("protocol", .str "A2A v1.0")]

/-! ## Trace predicates -/

/-- Does an event record an agent call? -/
def isCallEv : Event → Bool
  | .call .. => true
  | _ => false

/-- Does an event record a call answered by an
`ActionResponse{status=failed}`? -/
def failedARCall : Event → Bool
  | .call _ _ (.actionResponse _ _ .failed _ _) => true
  | _ => false

/-- No call in the list was answered by a failed `ActionResponse`. -/
def noFailedAR (es : List Event) : Bool := es.all (fun e => !failedARCall e)

/-- Every call answered by a failed `ActionResponse` sits at the last
position of the list. -/
def failedAROnlyLast : List Event → Bool
  | [] => true
  | e :: rest => (rest.isEmpty || !failedARCall e) && failedAROnlyLast rest

/-- The `status`/`current_agent` pair each pipeline step writes
immediately before issuing its call (coordinator_a2a.py lines 184-187,
205-208, 219-222, 233-236, 256-259). -/
def expectedWrite (action : String) : Option TaskMap :=
  if action = "refine_topic" then
    some [("status", .str "refining_topic"),
          ("current_agent", .str "Dr. Topic Refiner")]
  else if action = "generate_questions" then
    some [("status", .str "generating_questions"),
          ("current_agent", .str "Prof. Question Architect")]
  else if action = "execute_search" then
    some [("status", .str "searching"),
          ("current_agent", .str "Agent Search Strategist")]
  else if action = "analyze_results" then
    some [("status", .str "analyzing"),
          ("current_agent", .str "Dr. Data Analyst")]
  else if action = "generate_report" then
    some [("status", .str "generating_report"),
          ("current_agent", .str "Dr. Report Writer")]
  else none

/-- Checker for C8: every call event is immediately preceded by the write
of its step's status and agent labels (`prev` is the event just before
the list, `none` at the start of the trace). -/
def cpo (prev : Option Event) : List Event → Bool
  | [] => true
  | e :: rest =>
    (match e with
     | .call _ act _ =>
       (match prev with
        | some (.write u) => decide (expectedWrite act = some u)
        | _ => false)
     | _ => true) && cpo (some e) rest

/-- The last event of `es`, or `p` when `es` is empty. -/
def olast (p : Option Event) : List Event → Option Event
  | [] => p
  | e :: rest => olast (some e) rest

/-- No write event of the list touches the `iteration` key. -/
def noIterWrites (es : List Event) : Bool :=
  es.all (fun e => match e with
    | .write u => decide (u.lookup "iteration" = none)
    | _ => true)

/-- The trace contract of a workflow fragment: it only appends events;
every appended call is immediately preceded by its step's write; a normal
return appends no failed-`ActionResponse` call; a raise appends a
failed-`ActionResponse` call at most as the very last event; and no
appended write touches the `iteration` key. -/
def StepSpec {α : Type} (f : WS → WS × Except String α) : Prop :=
  ∀ w, ∃ Δ,
    (f w).1.events = w.events ++ Δ ∧
    (∀ p, cpo p Δ = true) ∧
    (∀ a, (f w).2 = .ok a → noFailedAR Δ = true) ∧
    (∀ e, (f w).2 = .error e → failedAROnlyLast Δ = true) ∧
    noIterWrites Δ = true

/-- The `should_continue` evaluations of a trace, in order, with the store
each one read. -/
def decidesOf (es : List Event) : List (String × Option TaskMap) :=
  es.filterMap (fun e => match e with
    | .decide d s => some (d, s)
    | _ => none)

/-- The shape invariant the task record keeps during a run that starts
from `initial_state`: `iteration` holds the number `j`, the accumulator
fields hold lists, and the numeric fields hold numbers. -/
structure GoodState (j : ℚ) (st : TaskMap) : Prop where
  iter : st.lookup "iteration" = some (.num j)
  rq : ∃ xs, st.lookup "research_questions" = some (.arr xs)
  sq : ∃ xs, st.lookup "search_queries" = some (.arr xs)
  sr : ∃ xs, st.lookup "search_results" = some (.arr xs)
  kf : ∃ xs, st.lookup "key_findings" = some (.arr xs)
  logs : ∃ xs, st.lookup "agent_logs" = some (.arr xs)
  quality : ∃ q, st.lookup "quality_score" = some (.num q)
  maxiter : ∃ q, st.lookup "max_iterations" = some (.num q)

/-! ## The full system: the coordinator driving the real agents -/

/-- Per-call oracles for the opaque capabilities: the LLM completion, the
web search (per query; `none` = the swallowed search exception), response
uuids and timestamps, all indexed by the coordinator call number. -/
structure Oracles where
  llm : Nat → String
  search : Nat → String → Option (List (String × String))
  fresh : Nat → String
  now : Nat → String

/-- The static agent directory (AGENT_URIS / AGENT_SERVICES): resolve a
URI to its service. -/
def realAgent (o : Oracles) (n : Nat) (uri : String) : AgentSpec :=
  if uri = "agent://topic-refiner" then topicRefinerAgent (o.llm n) (o.now n)
  else if uri = "agent://question-architect" then
    questionArchitectAgent (o.llm n) (o.now n)
  else if uri = "agent://search-strategist" then
    searchStrategistAgent (o.llm n) (o.search n) (o.now n)
  else if uri = "agent://data-analyst" then dataAnalystAgent (o.llm n) (o.now n)
  else if uri = "agent://report-writer" then reportWriterAgent (o.llm n) (o.now n)
  else
    { agent_id := uri, name := uri, role := "", expertise := "",
      temperature := 0, capabilities := [],
      handle := fun action _ _ store =>
        (.error ("Unknown action: " ++ action), store) }

/-- The environment realized by the five agent services: each coordinator
call becomes an `ActionRequest` envelope processed by the addressed
agent's `process_message`. -/
def realEnv (o : Oracles) : Env := fun n uri action params store =>
  let a := realAgent o n uri
  let m : A2AMessage :=
    { id := o.fresh n, toAgent := uri, from_agent := "agent://coordinator",
      content := .actionRequest action params [], reply_to := none,
      timestamp := o.now n, metadata := [] }
  let r := process_message a (o.fresh n) (o.now n) m store
  (r.1.content, r.2)

end A2A

namespace A2A

/-! # Theorems -/

/-! ## Shared computation lemmas -/

theorem lookup_map_replace (updates : JObj) (k : String) (prev : JObj) :
    (prev.map (fun p => match updates.lookup p.1 with
        | some v => (p.1, v)
        | none => p)).lookup k =
      match prev.lookup k with
      | some w => some ((updates.lookup k).getD w)
      | none => none := by
  induction prev with
  | nil => simp
  | cons p ps ih =>
    obtain ⟨pk, pv⟩ := p
    by_cases h : k = pk
    · subst h
      cases hu : updates.lookup k <;>
        simp [List.lookup, hu]
    · have hb : (k == pk) = false := by simp [h]
      cases hu : updates.lookup pk <;>
        simp [List.lookup, hu, hb, ih]

theorem lookup_filter_key (q : String → Bool) (k : String) (us : JObj) :
    (us.filter (fun u => q u.1)).lookup k =
      if q k then us.lookup k else none := by
  induction us with
  | nil => simp
  | cons u us ih =>
    obtain ⟨uk, uv⟩ := u
    by_cases h : k = uk
    · subst h
      cases hq : q k <;> simp [List.lookup, List.filter, hq, ih]
    · have hb : (k == uk) = false := by simp [h]
      cases hq : q uk <;> simp [List.lookup, List.filter, hq, ih, hb]

theorem lookup_append_obj (xs ys : JObj) (k : String) :
    (xs ++ ys).lookup k =
      match xs.lookup k with
      | some v => some v
      | none => ys.lookup k := by
  induction xs with
  | nil => simp
  | cons x xs ih =>
    obtain ⟨xk, xv⟩ := x
    by_cases h : k = xk
    · simp [List.lookup, h]
    · have hb : (k == xk) = false := by simp [h]
      simp [List.lookup, hb, ih]

theorem lookup_none_iff_not_any (prev : JObj) (k : String) :
    prev.lookup k = none ↔ prev.any (fun p => p.1 == k) = false := by
  induction prev with
  | nil => simp
  | cons p ps ih =>
    obtain ⟨pk, pv⟩ := p
    by_cases h : k = pk
    · simp [List.lookup, h]
    · have hb : (k == pk) = false := by simp [h]
      have hb' : (pk == k) = false := by
        simp [beq_iff_eq]
        exact fun e => h e.symm
      simp [List.lookup, hb, hb', ih]

/-- Lookup semantics of `dictUpdate`: a key takes its value from `updates`
when present there and from `prev` otherwise. -/
theorem lookup_dictUpdate (prev updates : JObj) (k : String) :
    (dictUpdate prev updates).lookup k =
      match updates.lookup k with
      | some v => some v
      | none => prev.lookup k := by
  unfold dictUpdate
  rw [lookup_append_obj, lookup_map_replace,
    lookup_filter_key (fun s => !prev.any (fun p => p.1 == s))]
  cases hp : prev.lookup k with
  | some w =>
    cases hu : updates.lookup k <;> simp [hu]
  | none =>
    have := (lookup_none_iff_not_any prev k).mp hp
    cases hu : updates.lookup k <;> simp [this, hu, hp]

@[simp] theorem ok_bind {α β ε : Type} (a : α) (f : α → Except ε β) :
    (Except.ok a : Except ε α) >>= f = f a := rfl

@[simp] theorem pure_eq_ok {α ε : Type} (a : α) :
    (pure a : Except ε α) = .ok a := rfl

@[simp] theorem err_bind {α β ε : Type} (e : ε) (f : α → Except ε β) :
    (Except.error e : Except ε α) >>= f = .error e := rfl

theorem decodeCapability_encode (c : A2ACapability) :
    decodeCapability (encodeCapability c) = .ok c := by
  cases c
  rfl

theorem decodeCapabilities_encode (cs : List A2ACapability) :
    decodeCapabilities (cs.map encodeCapability) = .ok cs := by
  induction cs with
  | nil => rfl
  | cons c cs ih =>
    simp [decodeCapabilities, decodeCapability_encode, ih]

theorem decodeAgent_encode (a : A2AAgent) :
    decodeAgent (encodeAgent a) = .ok a := by
  cases a
  simp [decodeAgent, encodeAgent, reqStr, strFieldD, objFieldD, jGet,
    List.lookup, decodeCapabilities_encode]

theorem decodeContent_encode (c : A2AContentUnion) :
    decodeContent (.obj (encodeContent c)) = .ok c := by
  cases c with
  | actionRequest a p cx => rfl
  | actionResponse a r s e md => cases s <;> cases e <;> rfl
  | capabilityRequest => rfl
  | capabilityResponse caps ag =>
    simp [decodeContent, encodeContent, checkTag, contentDiscriminator, jTruthy,
      jGet, jGetD, List.lookup, decodeCapabilities_encode, decodeAgent_encode]
  | errorContent c m d => cases d <;> rfl
  | statusUpdate s p m =>
    cases s <;> rcases p with _ | ⟨q, hq⟩ <;> cases m <;>
      first
        | rfl
        | (simp [decodeContent, encodeContent, checkTag, contentDiscriminator,
            jTruthy, jGet, jGetD, statusField, optStrField, MessageStatus.toStr,
            List.lookup, hq.1, hq.2])

theorem decodeMessage_encode (now : String) (m : A2AMessage)
    (hr : m.reply_to ≠ some "") :
    decodeMessage now (encodeMessage m) = .ok m := by
  obtain ⟨i, t, f, c, r, ts, md⟩ := m
  rcases r with _ | r
  · simp [decodeMessage, encodeMessage, checkEnvelopeTag, reqStr, strFieldD,
      objFieldD, optStrField, jGet, List.lookup, decodeContent_encode]
  · have hr' : r ≠ "" := by simpa using hr
    simp [decodeMessage, encodeMessage, checkEnvelopeTag, reqStr, strFieldD,
      objFieldD, optStrField, jGet, List.lookup, decodeContent_encode, hr']

/-! ## C1 -/

/-- C1 (amended): decoding the encoding of an envelope yields the original
envelope — for every envelope whose `reply_to` is not the empty string
(`send_message` drops a falsy `reply_to`, which decodes back to `None`) —
and the encoded content always contains the `@type` discriminator tag. -/
theorem encode_decode_roundtrip (now : String) (m : A2AMessage)
    (hr : m.reply_to ≠ some "") :
    decodeMessage now (encodeMessage m) = .ok m ∧
    jGet (encodeContent m.content) "@type" =
      some (.str (contentTag m.content)) := by
  refine ⟨decodeMessage_encode now m hr, ?_⟩
  cases m.content <;> rfl

/-- C1, counterexample to the claim as stated: an envelope with
`reply_to = ""` does not survive the round trip (it comes back with
`reply_to = None`). -/
theorem encode_decode_roundtrip_counterexample :
    decodeMessage "t0" (encodeMessage
      { id := "m1", toAgent := "agent://data-analyst",
        from_agent := "agent://coordinator",
        content := .capabilityRequest, reply_to := some "",
        timestamp := "t0", metadata := [] }) ≠
    .ok { id := "m1", toAgent := "agent://data-analyst",
          from_agent := "agent://coordinator",
          content := .capabilityRequest, reply_to := some "",
          timestamp := "t0", metadata := [] } := by
  intro h
  have he : decodeMessage "t0" (encodeMessage
      { id := "m1", toAgent := "agent://data-analyst",
        from_agent := "agent://coordinator",
        content := .capabilityRequest, reply_to := some "",
        timestamp := "t0", metadata := [] }) =
      .ok { id := "m1", toAgent := "agent://data-analyst",
            from_agent := "agent://coordinator",
            content := .capabilityRequest, reply_to := none,
            timestamp := "t0", metadata := [] } := rfl
  rw [he] at h
  simp at h

/-- C1, witness: the round trip at a concrete envelope with a progress
bearing status update. -/
theorem encode_decode_roundtrip_witness :
    decodeMessage "t1" (encodeMessage
      { id := "m2", toAgent := "agent://data-analyst",
        from_agent := "agent://coordinator",
        content := .statusUpdate .processing (some ⟨1/2, by norm_num⟩)
          (some "working"),
        reply_to := some "m1", timestamp := "t0",
        metadata := [("k", .str "v")] }) =
    .ok { id := "m2", toAgent := "agent://data-analyst",
          from_agent := "agent://coordinator",
          content := .statusUpdate .processing (some ⟨1/2, by norm_num⟩)
            (some "working"),
          reply_to := some "m1", timestamp := "t0",
          metadata := [("k", .str "v")] } ∧
    jGet (encodeContent (.statusUpdate .processing (some ⟨1/2, by norm_num⟩)
        (some "working"))) "@type" = some (.str "StatusUpdate") :=
  encode_decode_roundtrip "t1" _ (by decide)

/-! ## C10 -/

/-- C10: `update_state` replaces exactly the keys of `updates` and keeps
every other key's previous value; an absent record acts as the empty map. -/
theorem update_state_exact (store : Option TaskMap) (updates : TaskMap)
    (k : String) :
    ∃ st, update_state store updates = some st ∧
      st.lookup k = match updates.lookup k with
        | some v => some v
        | none => (store.getD []).lookup k :=
  ⟨_, rfl, lookup_dictUpdate _ _ _⟩

/-! ## C2 -/

/-- C2: `should_continue` is a function of the four persisted values:
`finalize` exactly when `iteration >= max_iterations`, or
`quality_score >= 0.8`, or `len(key_findings) >= 10`; `continue`
otherwise. -/
theorem should_continue_policy (st : TaskMap) (i mi q : ℚ) (kf : List JValue)
    (hi : asNum (jGetD st "iteration" (.num 0)) = .ok i)
    (hmi : asNum (jGetD st "max_iterations" (.num 2)) = .ok mi)
    (hq : asNum (jGetD st "quality_score" (.num 0)) = .ok q)
    (hkf : jGetD st "key_findings" (.arr []) = .arr kf) :
    should_continue (some st) =
      .ok (if mi ≤ i ∨ (0.8 : ℚ) ≤ q ∨ 10 ≤ kf.length
           then "finalize" else "continue") := by
  by_cases h1 : mi ≤ i <;> by_cases h2 : (0.8 : ℚ) ≤ q <;>
    by_cases h3 : 10 ≤ kf.length <;>
      simp [should_continue, hi, hmi, hq, hkf, asLen, h1, h2, h3]

/-- C2, witness: the freshly initialized task continues. -/
theorem should_continue_policy_witness :
    should_continue (some (initial_state "t" "x" 2)) = .ok "continue" := by
  have h := should_continue_policy (initial_state "t" "x" 2) 0 2 0 []
    rfl rfl rfl rfl
  rw [h]
  norm_num

/-! ## C5 -/

/-- C5: a content payload whose discriminator is missing (`.null`) or not
one of the six recognized variant names fails with the
unknown-content-type decode error. -/
theorem unknown_discriminator_rejected (o : JObj)
    (h : ∀ t ∈ (["ActionRequest", "ActionResponse", "CapabilityRequest",
        "CapabilityResponse", "Error", "StatusUpdate"] : List String),
      contentDiscriminator o ≠ .str t) :
    decodeContent (.obj o) =
      .error (.unknownContentType (contentDiscriminator o)) := by
  have h1 := h "ActionRequest" (by simp)
  have h2 := h "ActionResponse" (by simp)
  have h3 := h "CapabilityRequest" (by simp)
  have h4 := h "CapabilityResponse" (by simp)
  have h5 := h "Error" (by simp)
  have h6 := h "StatusUpdate" (by simp)
  simp [decodeContent, h1, h2, h3, h4, h5, h6]

/-- C5, witness: a payload with no discriminator field at all. -/
theorem unknown_discriminator_rejected_witness :
    decodeContent (.obj [("foo", .str "x")]) =
      .error (.unknownContentType .null) := by
  have h := unknown_discriminator_rejected [("foo", .str "x")] (by decide)
  simpa using h

/-! ## C7 -/

/-- C7: every response `process_message` produces — capability response,
completed or failed action response, and error reply — carries
`reply_to = inbound id` and `from = this agent's identifier`. -/
theorem responses_correlate (a : AgentSpec) (fresh now : String)
    (m : A2AMessage) (store : Option TaskMap) :
    (process_message a fresh now m store).1.reply_to = some m.id ∧
    (process_message a fresh now m store).1.from_agent = a.agent_id := by
  cases hm : m.content with
  | actionRequest act p ctx =>
    unfold process_message handleActionRequest
    rw [hm]
    rcases h : a.handle act p ctx store with ⟨r, st⟩
    cases r <;> simp [h]
  | capabilityRequest => simp [process_message, handleCapabilityRequest, hm]
  | actionResponse a' r' s' e' md' => simp [process_message, hm]
  | capabilityResponse c' ag' => simp [process_message, hm]
  | errorContent c' m' d' => simp [process_message, hm]
  | statusUpdate s' p' m' => simp [process_message, hm]

/-! ## C4 -/

/-- C4: any exception raised by the action handler — including the
`ValueError` for an action missing from the agent's table, shown here for
the data analyst — is caught at the dispatch boundary and becomes
`ActionResponse{status=failed, error=str(e), result={}}`; a normal return
becomes the completed response; nothing else escapes. -/
theorem handler_exception_to_failed_response (a : AgentSpec)
    (fresh now : String) (m : A2AMessage) (act : String) (p ctx : JObj)
    (store : Option TaskMap) (hm : m.content = .actionRequest act p ctx) :
    (∀ e st, a.handle act p ctx store = (.error e, st) →
      process_message a fresh now m store =
        ({ id := fresh, toAgent := m.from_agent, from_agent := a.agent_id,
           content := .actionResponse act [] .failed (some e) [],
           reply_to := some m.id, timestamp := now, metadata := [] }, st)) ∧
    (∀ r st, a.handle act p ctx store = (.ok r, st) →
      process_message a fresh now m store =
        ({ id := fresh, toAgent := m.from_agent, from_agent := a.agent_id,
           content := .actionResponse act r .completed none [],
           reply_to := some m.id, timestamp := now, metadata := [] }, st)) ∧
    (∀ llmOut nowA act', act' ≠ "analyze_results" →
      (dataAnalystAgent llmOut nowA).handle act' p ctx store =
        (.error ("Unknown action: " ++ act'), store)) := by
  refine ⟨?_, ?_, ?_⟩
  · intro e st h
    simp [process_message, handleActionRequest, hm, h]
  · intro r st h
    simp [process_message, handleActionRequest, hm, h]
  · intro llmOut nowA act' hact
    simp [dataAnalystAgent, hact]

/-- C4, witness: the data analyst receiving an unknown action returns the
failed-response shape carrying the `ValueError` text. -/
theorem handler_exception_to_failed_response_witness :
    process_message (dataAnalystAgent "" "t0") "f1" "t1"
      { id := "m1", toAgent := "agent://data-analyst",
        from_agent := "agent://coordinator",
        content := .actionRequest "bogus" [] [], reply_to := none,
        timestamp := "t0", metadata := [] } none =
      ({ id := "f1", toAgent := "agent://coordinator",
         from_agent := "agent://data-analyst",
         content := .actionResponse "bogus" [] .failed
           (some "Unknown action: bogus") [],
         reply_to := some "m1", timestamp := "t1", metadata := [] }, none) := by
  have h := handler_exception_to_failed_response (dataAnalystAgent "" "t0")
    "f1" "t1"
    { id := "m1", toAgent := "agent://data-analyst",
      from_agent := "agent://coordinator",
      content := .actionRequest "bogus" [] [], reply_to := none,
      timestamp := "t0", metadata := [] } "bogus" [] [] none rfl
  exact h.1 "Unknown action: bogus" none (h.2.2 "" "t0" "bogus" (by decide))

/-! ## C6 -/

/-- C6 (amended): a payload that fails to decode is rejected by the
framework's request validation — `process_message` never runs and no
`Error` envelope is produced; the `UNSUPPORTED_MESSAGE_TYPE` error
envelope (to the sender, `reply_to` = inbound id) is instead the response
to a successfully decoded envelope whose content variant is neither a
capability request nor an action request. -/
theorem unsupported_content_error_envelope (a : AgentSpec)
    (fresh now : String) (store : Option TaskMap) :
    (∀ raw d, decodeMessage now raw = .error d →
      receive_message a fresh now raw store = .error d) ∧
    (∀ m : A2AMessage,
      (∀ act p ctx, m.content ≠ .actionRequest act p ctx) →
      m.content ≠ .capabilityRequest →
      (process_message a fresh now m store).1 =
        { id := fresh, toAgent := m.from_agent, from_agent := a.agent_id,
          content := .errorContent "UNSUPPORTED_MESSAGE_TYPE"
            ("Unsupported message content type: " ++ contentTag m.content)
            none,
          reply_to := some m.id, timestamp := now, metadata := [] }) := by
  constructor
  · intro raw d h
    simp [receive_message, h]
  · intro m hact hcap
    cases hm : m.content with
    | actionRequest act p ctx => exact absurd hm (hact act p ctx)
    | capabilityRequest => exact absurd hm hcap
    | actionResponse a' r' s' e' md' => simp [process_message, hm]
    | capabilityResponse c' ag' => simp [process_message, hm]
    | errorContent c' m' d' => simp [process_message, hm]
    | statusUpdate s' p' m' => simp [process_message, hm]

/-- C6, counterexample to the claim as stated: a payload whose content has
an unrecognized discriminator fails the model validation performed before
the endpoint handler runs, so the agent answers with the framework's
validation error — no `UNSUPPORTED_MESSAGE_TYPE` Error envelope is
produced for a `DecodeError`. -/
theorem decode_failure_yields_no_envelope :
    receive_message (dataAnalystAgent "" "t0") "f1" "t1"
      [("@type", .str "Message"), ("id", .str "m1"),
       ("to", .str "agent://data-analyst"),
       ("from", .str "agent://coordinator"),
       ("content", .obj [("@type", .str "Bogus")]),
       ("timestamp", .str "t0"), ("metadata", .obj [])] none =
      .error (.unknownContentType (.str "Bogus")) := rfl

/-- C6, witness: an inbound `StatusUpdate` (valid envelope, unsupported
inbound variant) gets the `UNSUPPORTED_MESSAGE_TYPE` error envelope. -/
theorem unsupported_content_error_envelope_witness :
    (process_message (dataAnalystAgent "" "t0") "f1" "t1"
      { id := "m1", toAgent := "agent://data-analyst",
        from_agent := "agent://coordinator",
        content := .statusUpdate .completed none none, reply_to := none,
        timestamp := "t0", metadata := [] } none).1 =
      { id := "f1", toAgent := "agent://coordinator",
        from_agent := "agent://data-analyst",
        content := .errorContent "UNSUPPORTED_MESSAGE_TYPE"
          "Unsupported message content type: StatusUpdate" none,
        reply_to := some "m1", timestamp := "t1", metadata := [] } := by
  have h := (unsupported_content_error_envelope (dataAnalystAgent "" "t0")
    "f1" "t1" none).2
    { id := "m1", toAgent := "agent://data-analyst",
      from_agent := "agent://coordinator",
      content := .statusUpdate .completed none none, reply_to := none,
      timestamp := "t0", metadata := [] }
    (by intro act p ctx h; simp at h) (by simp)
  simpa using h

/-! ## Trace lemmas -/

theorem cpo_append (p : Option Event) (xs ys : List Event) :
    cpo p (xs ++ ys) = (cpo p xs && cpo (olast p xs) ys) := by
  induction xs generalizing p with
  | nil => simp [cpo, olast]
  | cons x xs ih =>
    simp [cpo, olast, ih, Bool.and_assoc]

theorem noFailedAR_append (xs ys : List Event) :
    noFailedAR (xs ++ ys) = (noFailedAR xs && noFailedAR ys) := by
  simp [noFailedAR]

theorem noIterWrites_append (xs ys : List Event) :
    noIterWrites (xs ++ ys) = (noIterWrites xs && noIterWrites ys) := by
  simp [noIterWrites]

theorem noFailedAR_onlyLast (xs : List Event) (h : noFailedAR xs = true) :
    failedAROnlyLast xs = true := by
  induction xs with
  | nil => rfl
  | cons x xs ih =>
    simp only [noFailedAR, List.all_cons, Bool.and_eq_true] at h
    have hxs : noFailedAR xs = true := h.2
    simp [failedAROnlyLast, h.1, ih hxs]

theorem failedAROnlyLast_append (xs ys : List Event)
    (hx : noFailedAR xs = true) (hy : failedAROnlyLast ys = true) :
    failedAROnlyLast (xs ++ ys) = true := by
  induction xs with
  | nil => simpa using hy
  | cons x xs ih =>
    simp only [noFailedAR, List.all_cons, Bool.and_eq_true] at hx
    have hxs : noFailedAR xs = true := hx.2
    simp [failedAROnlyLast, hx.1, ih hxs]

theorem noFailedAR_get (es : List Event) (h : noFailedAR es = true)
    (i : Nat) (e : Event) (he : es[i]? = some e) : failedARCall e = false := by
  induction es generalizing i with
  | nil => simp at he
  | cons x xs ih =>
    simp only [noFailedAR, List.all_cons, Bool.and_eq_true] at h
    have hxs : noFailedAR xs = true := h.2
    cases i with
    | zero =>
      rw [List.getElem?_cons_zero] at he
      injection he with he
      subst he
      simpa using h.1
    | succ j => exact ih hxs j (by simpa using he)

theorem noIterWrites_get (es : List Event) (h : noIterWrites es = true)
    (u : TaskMap) (hu : Event.write u ∈ es) : u.lookup "iteration" = none := by
  induction es with
  | nil => simp at hu
  | cons x xs ih =>
    simp only [noIterWrites, List.all_cons, Bool.and_eq_true] at h
    rcases List.mem_cons.mp hu with hx | hxs
    · subst hx
      simpa using h.1
    · exact ih h.2 hxs

theorem failedAROnlyLast_get (es : List Event)
    (h : failedAROnlyLast es = true) (i : Nat) (e : Event)
    (he : es[i]? = some e) (hf : failedARCall e = true) :
    i + 1 = es.length := by
  induction es generalizing i with
  | nil => simp at he
  | cons x xs ih =>
    simp only [failedAROnlyLast, Bool.and_eq_true, Bool.or_eq_true,
      Bool.not_eq_true'] at h
    cases i with
    | zero =>
      rw [List.getElem?_cons_zero] at he
      injection he with he
      subst he
      rcases h.1 with hemp | hnf
      · rw [List.isEmpty_iff] at hemp
        subst hemp
        simp
      · exact absurd hf (by simp [hnf])
    | succ j =>
      have := ih h.2 j (by simpa using he)
      simp [this]

/-! ## StepSpec instances -/

theorem checkActionResponse_ok_not_failed (act : String)
    (c : A2AContentUnion) (r : JObj) (h : checkActionResponse act c = .ok r)
    (ag : String) : failedARCall (.call ag act c) = false := by
  cases c with
  | actionResponse a' r' s' e' md' =>
    cases s' <;> simp_all [checkActionResponse, failedARCall]
  | actionRequest a' p' c' => simp [failedARCall]
  | capabilityRequest => simp [failedARCall]
  | capabilityResponse cs ag' => simp [failedARCall]
  | errorContent c' m' d' => simp [failedARCall]
  | statusUpdate s' p' m' => simp [failedARCall]

theorem stepSpec_pure {α : Type} (k : WS → Except String α) :
    StepSpec (fun w => (w, k w)) := by
  intro w
  exact ⟨[], by simp, fun p => rfl, fun _ _ => rfl, fun _ _ => rfl, rfl⟩

theorem stepSpec_finalWrite (u : TaskMap)
    (hu : u.lookup "iteration" = none) :
    StepSpec (fun w => (doUpdate u w, Except.ok ())) := by
  intro w
  refine ⟨[.write u], by simp [doUpdate], fun p => rfl,
    fun _ _ => rfl, fun _ _ => rfl, ?_⟩
  simp [noIterWrites, hu]

theorem stepSpec_doStep (env : Env) (agent action : String) (params : JObj)
    (sl al : String)
    (hexp : expectedWrite action =
      some [("status", .str sl), ("current_agent", .str al)]) :
    StepSpec (doStep env agent action params sl al) := by
  intro w
  refine ⟨[.write [("status", .str sl), ("current_agent", .str al)],
    .call agent action
      (env w.calls agent action params
        (update_state w.store
          [("status", .str sl), ("current_agent", .str al)])).1],
    ?_, ?_, ?_, ?_, ?_⟩
  · simp [doStep, doUpdate]
  · intro p
    simp [cpo, hexp]
  · intro a ha
    simp only [doStep, doUpdate] at ha
    have hnf := checkActionResponse_ok_not_failed action _ a ha agent
    simp [noFailedAR, failedARCall] at hnf ⊢
    exact hnf
  · intro e he
    simp [failedAROnlyLast, failedARCall]
  · simp [noIterWrites, List.lookup]

theorem stepSpec_bind {α β : Type} {f : WS → WS × Except String α}
    {g : α → WS → WS × Except String β}
    (hf : StepSpec f) (hg : ∀ a, StepSpec (g a)) :
    StepSpec (bindStep f g) := by
  intro w
  obtain ⟨Δf, hev, hcpo, hok, herr, hiter⟩ := hf w
  rcases hfw : f w with ⟨w', r⟩
  rw [hfw] at hev hok herr
  cases r with
  | error e =>
    refine ⟨Δf, ?_, hcpo, ?_, ?_, hiter⟩
    · simpa [bindStep, hfw] using hev
    · intro a ha
      simp [bindStep, hfw] at ha
    · intro e' he'
      exact herr e rfl
  | ok a =>
    obtain ⟨Δg, hev2, hcpo2, hok2, herr2, hiter2⟩ := (hg a) w'
    have hev' : w'.events = w.events ++ Δf := hev
    refine ⟨Δf ++ Δg, ?_, ?_, ?_, ?_, ?_⟩
    · simp [bindStep, hfw, hev2, hev']
    · intro p
      rw [cpo_append]
      simp [hcpo, hcpo2]
    · intro b hb
      simp only [bindStep, hfw] at hb
      rw [noFailedAR_append]
      simp [hok a rfl, hok2 b hb]
    · intro e he
      simp only [bindStep, hfw] at he
      exact failedAROnlyLast_append _ _ (hok a rfl) (herr2 e he)
    · rw [noIterWrites_append]
      simp [hiter, hiter2]

theorem stepSpec_decide : StepSpec decideStep := by
  intro w
  cases hd : should_continue w.store with
  | error e =>
    exact ⟨[], by simp [decideStep, hd], fun p => rfl,
      fun a ha => by simp [decideStep, hd] at ha, fun _ _ => rfl, rfl⟩
  | ok dec =>
    exact ⟨[.decide dec w.store], by simp [decideStep, hd], fun p => rfl,
      fun _ _ => rfl, fun _ _ => rfl, rfl⟩

theorem stepSpec_loopBody (env : Env) (tid : String) :
    StepSpec (loopBody env tid) := by
  unfold loopBody
  refine stepSpec_bind (stepSpec_doStep env _ _ _ _ _ rfl) (fun _ => ?_)
  refine stepSpec_bind (stepSpec_doStep env _ _ _ _ _ rfl) (fun _ => ?_)
  exact stepSpec_bind (stepSpec_doStep env _ _ _ _ _ rfl)
    (fun _ => stepSpec_pure (fun _ => .ok ()))

theorem stepSpec_researchLoop (env : Env) (tid : String) (fuel : Nat) :
    StepSpec (researchLoop env tid fuel) := by
  induction fuel with
  | zero =>
    intro w
    exact ⟨[], by simp [researchLoop], fun p => rfl,
      fun _ _ => rfl, fun e he => by simp [researchLoop] at he, rfl⟩
  | succ fuel ih =>
    have hspec : StepSpec (bindStep (loopBody env tid) (fun _ =>
        bindStep decideStep (fun dec w' =>
          if dec = "finalize" then (w', .ok ())
          else researchLoop env tid fuel w'))) := by
      refine stepSpec_bind (stepSpec_loopBody env tid) (fun _ => ?_)
      refine stepSpec_bind stepSpec_decide (fun dec => ?_)
      by_cases hdec : dec = "finalize"
      · simp only [hdec, if_pos rfl]
        exact stepSpec_pure (fun _ => .ok ())
      · simp only [if_neg hdec]
        exact ih
    intro w
    exact hspec w

theorem stepSpec_wfStep (env : Env) (tid : String)
    (store0 : Option TaskMap) : StepSpec (wfStep env tid store0) := by
  unfold wfStep
  refine stepSpec_bind (stepSpec_doStep env _ _ _ _ _ rfl) (fun _ => ?_)
  cases store0 with
  | none =>
    exact stepSpec_pure
      (fun _ => .error "AttributeError: NoneType object has no attribute get")
  | some st0 =>
    cases hmi : asNum (jGetD st0 "max_iterations" (.num 2)) with
    | error e =>
      simp only [hmi]
      exact stepSpec_pure (fun _ => .error e)
    | ok mi =>
      simp only [hmi]
      refine stepSpec_bind (stepSpec_researchLoop env tid _) (fun _ => ?_)
      exact stepSpec_bind (stepSpec_doStep env _ _ _ _ _ rfl)
        (fun _ => stepSpec_finalWrite [("status", .str "completed")] rfl)

/-! ## C8 -/

/-- C8: in every workflow run, each pipeline call event is immediately
preceded in the trace by the coordinator's write of that step's `status`
value and the name of the agent about to run (`expectedWrite`), for all
five steps. -/
theorem status_written_before_call (env : Env) (tid : String)
    (store0 : Option TaskMap) :
    cpo none (run_workflow env tid store0).1.events = true := by
  obtain ⟨Δ, hev, hcpo, hok, herr, hiter⟩ :=
    stepSpec_wfStep env tid store0 { store := store0, events := [], calls := 0 }
  rcases hb : workflowBody env tid store0 with ⟨w, r⟩
  have hbe : wfStep env tid store0
      { store := store0, events := [], calls := 0 } = (w, r) := hb
  rw [hbe] at hev hok herr
  have hevents : w.events = Δ := by simpa using hev
  cases r with
  | ok a =>
    cases a
    simpa [run_workflow, hb, hevents] using hcpo none
  | error e =>
    simp only [run_workflow, hb, doUpdate]
    rw [hevents, cpo_append]
    simp [hcpo none, cpo]

/-! ## C3 -/

/-- C3: if any pipeline step's call is answered by an
`ActionResponse{status=failed}`, the coordinator issues no further agent
call in that run (so in particular never retries the step), and the
persisted record ends with `status="failed"` and a non-empty `error`. -/
theorem failed_call_short_circuit (env : Env) (tid : String)
    (store0 : Option TaskMap) (i : Nat) (ev : Event)
    (hi : (run_workflow env tid store0).1.events[i]? = some ev)
    (hfail : failedARCall ev = true) :
    (∀ j ev', i < j →
      (run_workflow env tid store0).1.events[j]? = some ev' →
      isCallEv ev' = false) ∧
    ∃ st, (run_workflow env tid store0).1.store = some st ∧
      st.lookup "status" = some (.str "failed") ∧
      ∃ msg, st.lookup "error" = some (.str msg) ∧ msg ≠ "" := by
  obtain ⟨Δ, hev, hcpo, hok, herr, hiter⟩ :=
    stepSpec_wfStep env tid store0 { store := store0, events := [], calls := 0 }
  rcases hb : workflowBody env tid store0 with ⟨w, r⟩
  have hbe : wfStep env tid store0
      { store := store0, events := [], calls := 0 } = (w, r) := hb
  rw [hbe] at hev hok herr
  have hevents : w.events = Δ := by simpa using hev
  cases r with
  | ok a =>
    cases a
    exfalso
    have hT : (run_workflow env tid store0).1.events = Δ := by
      simp [run_workflow, hb, hevents]
    rw [hT] at hi
    have := noFailedAR_get Δ (hok () rfl) i ev hi
    rw [hfail] at this
    exact Bool.noConfusion this
  | error e =>
    have honly : failedAROnlyLast Δ = true := herr e rfl
    have hT : (run_workflow env tid store0).1.events =
        Δ ++ [.write [("status", .str "failed"),
          ("error", .str ("Workflow error: " ++ e))]] := by
      simp [run_workflow, hb, doUpdate, hevents]
    have hilen : i + 1 = Δ.length := by
      rw [hT] at hi
      by_cases hlen : i < Δ.length
      · rw [List.getElem?_append_left hlen] at hi
        exact failedAROnlyLast_get Δ honly i ev hi hfail
      · exfalso
        push_neg at hlen
        rw [List.getElem?_append_right hlen] at hi
        rcases hj : i - Δ.length with _ | j
        · rw [hj] at hi
          simp at hi
          rw [← hi] at hfail
          simp [failedARCall] at hfail
        · rw [hj] at hi
          simp at hi
    constructor
    · intro j ev' hij hj
      rw [hT] at hj
      have hlen : Δ.length ≤ j := by omega
      rw [List.getElem?_append_right hlen] at hj
      rcases hd : j - Δ.length with _ | j'
      · rw [hd] at hj
        simp at hj
        rw [← hj]
        simp [isCallEv]
      · rw [hd] at hj
        simp at hj
    · have hst : (run_workflow env tid store0).1.store =
          update_state w.store [("status", .str "failed"),
            ("error", .str ("Workflow error: " ++ e))] := by
        simp [run_workflow, hb, doUpdate]
      refine ⟨_, hst, ?_, ?_⟩
      · rw [lookup_dictUpdate]
        rfl
      · refine ⟨"Workflow error: " ++ e, ?_, ?_⟩
        · rw [lookup_dictUpdate]
          rfl
        · intro hc
          have hlc := congrArg String.length hc
          rw [String.length_append] at hlc
          have h16 : "Workflow error: ".length = 16 := rfl
          have h0 : "".length = 0 := rfl
          rw [h16, h0] at hlc
          omega

/-- C3, witness: an environment whose very first agent answers with a
failed `ActionResponse` aborts the workflow with the failed status
persisted. -/
theorem failed_call_short_circuit_witness :
    ∃ st, (run_workflow
      (fun _ _ _ _ st0 =>
        (.actionResponse "x" [] .failed (some "boom") [], st0))
      "t" (some [])).1.store = some st ∧
      st.lookup "status" = some (.str "failed") ∧
      ∃ msg, st.lookup "error" = some (.str msg) ∧ msg ≠ "" :=
  (failed_call_short_circuit
    (fun _ _ _ _ st0 =>
      (.actionResponse "x" [] .failed (some "boom") [], st0))
    "t" (some []) 1
    (.call "agent://topic-refiner" "refine_topic"
      (.actionResponse "x" [] .failed (some "boom") []))
    rfl rfl).2

/-! ## C9 -/


/-! ## C9 helper lemmas -/

theorem lookup_dictUpdate_miss {st u : JObj} {k : String}
    (hu : u.lookup k = none) :
    (dictUpdate st u).lookup k = st.lookup k := by
  rw [lookup_dictUpdate, hu]

theorem lookup_dictUpdate_hit {st u : JObj} {k : String} {v : JValue}
    (hu : u.lookup k = some v) :
    (dictUpdate st u).lookup k = some v := by
  rw [lookup_dictUpdate, hu]

theorem dictUpdate_nil (u : JObj) : dictUpdate [] u = u := by
  simp [dictUpdate]

theorem lookup_isEmpty_false {st : JObj} {k : String} {v : JValue}
    (h : st.lookup k = some v) : st.isEmpty = false := by
  cases st with
  | nil => simp at h
  | cons a l => rfl

theorem requireTask_ok {params : JObj} {store : Option TaskMap} {st : TaskMap}
    (htid : jTruthy (jGetD params "task_id" .null) = true)
    (hst : store = some st) (hne : st.isEmpty = false) :
    requireTask params store = .ok st := by
  simp [requireTask, htid, hst, hne]

theorem requireTask_eq {params : JObj} {store : Option TaskMap} {st : TaskMap}
    (h : requireTask params store = .ok st) : store = some st := by
  simp only [requireTask] at h
  split at h
  · simp at h
  · split at h
    · simp at h
    · split at h
      · simp at h
      · injection h with h
        subst h
        rfl

theorem goodState_statusWrite {st : TaskMap} {j : ℚ} (sl al : String)
    (hg : GoodState j st) :
    GoodState j (dictUpdate st
      [("status", .str sl), ("current_agent", .str al)]) := by
  obtain ⟨xs1, h1⟩ := hg.rq
  obtain ⟨xs2, h2⟩ := hg.sq
  obtain ⟨xs3, h3⟩ := hg.sr
  obtain ⟨xs4, h4⟩ := hg.kf
  obtain ⟨xs5, h5⟩ := hg.logs
  obtain ⟨q1, h6⟩ := hg.quality
  obtain ⟨q2, h7⟩ := hg.maxiter
  exact ⟨by rw [lookup_dictUpdate]; exact hg.iter,
    ⟨xs1, by rw [lookup_dictUpdate]; exact h1⟩,
    ⟨xs2, by rw [lookup_dictUpdate]; exact h2⟩,
    ⟨xs3, by rw [lookup_dictUpdate]; exact h3⟩,
    ⟨xs4, by rw [lookup_dictUpdate]; exact h4⟩,
    ⟨xs5, by rw [lookup_dictUpdate]; exact h5⟩,
    ⟨q1, by rw [lookup_dictUpdate]; exact h6⟩,
    ⟨q2, by rw [lookup_dictUpdate]; exact h7⟩⟩

theorem add_log_eq (an ai ac now : String) (data : JObj)
    (store : Option TaskMap) (ls : List JValue)
    (hl : jGetD (store.getD []) "agent_logs" (.arr []) = .arr ls) :
    add_log an ai ac now data store = .ok (some (dictUpdate (store.getD [])
      [("agent_logs", .arr (ls ++ [.obj (dictUpdate
        [("agent", .str an), ("agent_id", .str ai),
         ("action", .str ac), ("timestamp", .str now)] data)]))])) := by
  simp [add_log, hl]



theorem goodState_update {st : TaskMap} {j : ℚ} (u : JObj) (hg : GoodState j st)
    (h1 : u.lookup "iteration" = none)
    (h2 : u.lookup "research_questions" = none)
    (h3 : u.lookup "search_queries" = none)
    (h4 : u.lookup "search_results" = none)
    (h5 : u.lookup "key_findings" = none)
    (h6 : u.lookup "agent_logs" = none)
    (h7 : u.lookup "quality_score" = none)
    (h8 : u.lookup "max_iterations" = none) :
    GoodState j (dictUpdate st u) := by
  obtain ⟨xs1, hx1⟩ := hg.rq
  obtain ⟨xs2, hx2⟩ := hg.sq
  obtain ⟨xs3, hx3⟩ := hg.sr
  obtain ⟨xs4, hx4⟩ := hg.kf
  obtain ⟨xs5, hx5⟩ := hg.logs
  obtain ⟨q1, hq1⟩ := hg.quality
  obtain ⟨q2, hq2⟩ := hg.maxiter
  exact ⟨by rw [lookup_dictUpdate, h1]; exact hg.iter,
    ⟨xs1, by rw [lookup_dictUpdate, h2]; exact hx1⟩,
    ⟨xs2, by rw [lookup_dictUpdate, h3]; exact hx2⟩,
    ⟨xs3, by rw [lookup_dictUpdate, h4]; exact hx3⟩,
    ⟨xs4, by rw [lookup_dictUpdate, h5]; exact hx4⟩,
    ⟨xs5, by rw [lookup_dictUpdate, h6]; exact hx5⟩,
    ⟨q1, by rw [lookup_dictUpdate, h7]; exact hq1⟩,
    ⟨q2, by rw [lookup_dictUpdate, h8]; exact hq2⟩⟩

theorem goodState_addLog {st : TaskMap} {j : ℚ} (l : List JValue)
    (hg : GoodState j st) :
    GoodState j (dictUpdate st [("agent_logs", .arr l)]) := by
  obtain ⟨xs1, hx1⟩ := hg.rq
  obtain ⟨xs2, hx2⟩ := hg.sq
  obtain ⟨xs3, hx3⟩ := hg.sr
  obtain ⟨xs4, hx4⟩ := hg.kf
  obtain ⟨q1, hq1⟩ := hg.quality
  obtain ⟨q2, hq2⟩ := hg.maxiter
  exact ⟨by rw [lookup_dictUpdate]; exact hg.iter,
    ⟨xs1, by rw [lookup_dictUpdate]; exact hx1⟩,
    ⟨xs2, by rw [lookup_dictUpdate]; exact hx2⟩,
    ⟨xs3, by rw [lookup_dictUpdate]; exact hx3⟩,
    ⟨xs4, by rw [lookup_dictUpdate]; exact hx4⟩,
    ⟨l, by rw [lookup_dictUpdate]; rfl⟩,
    ⟨q1, by rw [lookup_dictUpdate]; exact hq1⟩,
    ⟨q2, by rw [lookup_dictUpdate]; exact hq2⟩⟩

theorem refine_topic_good (llm now : String) (params : JObj)
    (store : Option TaskMap) (st : TaskMap) (j : ℚ)
    (htid : jTruthy (jGetD params "task_id" .null) = true)
    (hst : store = some st) (hg : GoodState j st) :
    ∃ res st', refine_topic llm params now store = (.ok res, some st') ∧
      GoodState j st' := by
  obtain ⟨ls, hls⟩ := hg.logs
  have hne := lookup_isEmpty_false hg.iter
  have hreq := requireTask_ok htid hst hne
  have hl : jGetD ((update_state store
      [("topic", .str llm.trim), ("status", .str "topic_refined"),
       ("current_agent", .str "Dr. Topic Refiner")]).getD [])
      "agent_logs" (.arr []) = .arr ls := by
    show jGetD (dictUpdate (store.getD []) _) "agent_logs" (.arr []) = .arr ls
    rw [hst]
    simp [jGetD, lookup_dictUpdate, hls, List.lookup]
  have hlog := add_log_eq "Dr. Topic Refiner" "agent://topic-refiner"
    "refined_topic" now
    [("input", jGetD st "topic" (.str "")), ("output", .str llm.trim)]
    (update_state store
      [("topic", .str llm.trim), ("status", .str "topic_refined"),
       ("current_agent", .str "Dr. Topic Refiner")]) ls hl
  refine ⟨[("refined_topic", .str llm.trim),
           ("original_topic", jGetD st "topic" (.str ""))],
    dictUpdate ((update_state store
        [("topic", .str llm.trim), ("status", .str "topic_refined"),
         ("current_agent", .str "Dr. Topic Refiner")]).getD [])
      [("agent_logs", .arr (ls ++ [.obj (dictUpdate
        [("agent", .str "Dr. Topic Refiner"),
         ("agent_id", .str "agent://topic-refiner"),
         ("action", .str "refined_topic"), ("timestamp", .str now)]
        [("input", jGetD st "topic" (.str "")),
         ("output", .str llm.trim)])]))], ?_, ?_⟩
  · simp only [refine_topic, hreq, hlog]
  · have hg1 : GoodState j (dictUpdate st
        [("topic", .str llm.trim), ("status", .str "topic_refined"),
         ("current_agent", .str "Dr. Topic Refiner")]) :=
      goodState_update _ hg rfl rfl rfl rfl rfl rfl rfl rfl
    have : (update_state store
        [("topic", .str llm.trim), ("status", .str "topic_refined"),
         ("current_agent", .str "Dr. Topic Refiner")]).getD [] =
        dictUpdate st
        [("topic", .str llm.trim), ("status", .str "topic_refined"),
         ("current_agent", .str "Dr. Topic Refiner")] := by
      rw [hst]; rfl
    rw [this]
    exact goodState_addLog _ hg1



theorem update_state_agentLogs {store : Option TaskMap} {st : TaskMap}
    {u : JObj} (hst : store = some st) (ls : List JValue)
    (hls : st.lookup "agent_logs" = some (.arr ls))
    (hu : u.lookup "agent_logs" = none) :
    jGetD ((update_state store u).getD []) "agent_logs" (.arr []) = .arr ls := by
  show jGetD (dictUpdate (store.getD []) u) "agent_logs" (.arr []) = .arr ls
  rw [hst]
  simp [jGetD, lookup_dictUpdate, hu, hls]

theorem generate_questions_good (llm now : String) (params : JObj)
    (store : Option TaskMap) (st : TaskMap) (j : ℚ)
    (htid : jTruthy (jGetD params "task_id" .null) = true)
    (hst : store = some st) (hg : GoodState j st) :
    ∃ res st', generate_questions llm params now store = (.ok res, some st') ∧
      GoodState j st' := by
  obtain ⟨ls, hls⟩ := hg.logs
  obtain ⟨qs, hqs⟩ := hg.rq
  have hne := lookup_isEmpty_false hg.iter
  have hreq := requireTask_ok htid hst hne
  have hqa : asArr (jGetD st "research_questions" (.arr [])) = .ok qs := by
    simp [asArr, jGetD, hqs]
  have hl := update_state_agentLogs (u :=
    [("research_questions", .arr (qs ++ (parseNumberedLines llm 3).map .str)),
     ("status", .str "questions_generated"),
     ("current_agent", .str "Prof. Question Architect")]) hst ls hls rfl
  have hlog := add_log_eq "Prof. Question Architect" "agent://question-architect"
    "generated_questions" now
    [("count", .num (parseNumberedLines llm 3).length),
     ("questions", .arr ((parseNumberedLines llm 3).map .str))]
    (update_state store
      [("research_questions", .arr (qs ++ (parseNumberedLines llm 3).map .str)),
       ("status", .str "questions_generated"),
       ("current_agent", .str "Prof. Question Architect")]) ls hl
  simp only [generate_questions, hreq, hqa, hlog]
  refine ⟨_, _, rfl, ?_⟩
  have hg1 : GoodState j (dictUpdate st
      [("research_questions", .arr (qs ++ (parseNumberedLines llm 3).map .str)),
       ("status", .str "questions_generated"),
       ("current_agent", .str "Prof. Question Architect")]) := by
    obtain ⟨xs2, hx2⟩ := hg.sq
    obtain ⟨xs3, hx3⟩ := hg.sr
    obtain ⟨xs4, hx4⟩ := hg.kf
    obtain ⟨q1, hq1⟩ := hg.quality
    obtain ⟨q2, hq2⟩ := hg.maxiter
    exact ⟨by rw [lookup_dictUpdate]; exact hg.iter,
      ⟨_, by rw [lookup_dictUpdate]; rfl⟩,
      ⟨xs2, by rw [lookup_dictUpdate]; exact hx2⟩,
      ⟨xs3, by rw [lookup_dictUpdate]; exact hx3⟩,
      ⟨xs4, by rw [lookup_dictUpdate]; exact hx4⟩,
      ⟨ls, by rw [lookup_dictUpdate]; exact hls⟩,
      ⟨q1, by rw [lookup_dictUpdate]; exact hq1⟩,
      ⟨q2, by rw [lookup_dictUpdate]; exact hq2⟩⟩
  have hgd : (update_state store
      [("research_questions", .arr (qs ++ (parseNumberedLines llm 3).map .str)),
       ("status", .str "questions_generated"),
       ("current_agent", .str "Prof. Question Architect")]).getD [] =
      dictUpdate st
      [("research_questions", .arr (qs ++ (parseNumberedLines llm 3).map .str)),
       ("status", .str "questions_generated"),
       ("current_agent", .str "Prof. Question Architect")] := by
    rw [hst]; rfl
  rw [hgd]
  exact goodState_addLog _ hg1



theorem execute_search_good (search : String → Option (List (String × String)))
    (now : String) (params : JObj)
    (store : Option TaskMap) (st : TaskMap) (j : ℚ)
    (htid : jTruthy (jGetD params "task_id" .null) = true)
    (hst : store = some st) (hg : GoodState j st) :
    ∃ res st', execute_search search params now store = (.ok res, some st') ∧
      GoodState (j + 1) st' := by
  obtain ⟨ls, hls⟩ := hg.logs
  obtain ⟨qs, hqs⟩ := hg.rq
  obtain ⟨sqs, hsqs⟩ := hg.sq
  obtain ⟨srs, hsrs⟩ := hg.sr
  have hne := lookup_isEmpty_false hg.iter
  have hreq := requireTask_ok htid hst hne
  have hs1 : asArr (jGetD st "search_results" (.arr [])) = .ok srs := by
    simp [asArr, jGetD, hsrs]
  have hs2 : asArr (jGetD st "search_queries" (.arr [])) = .ok sqs := by
    simp [asArr, jGetD, hsqs]
  have hs3 : asArr (jGetD st "research_questions" (.arr [])) = .ok qs := by
    simp [asArr, jGetD, hqs]
  have hi : asNum (jGetD st "iteration" (.num 0)) = .ok j := by
    simp [asNum, jGetD, hg.iter]
  set acc := qs.foldl (searchQuestionStep search) ⟨srs, sqs, 0, 0⟩ with hacc
  have hl := update_state_agentLogs (u :=
    [("search_results", .arr acc.results),
     ("search_queries", .arr acc.queries),
     ("iteration", .num (j + 1)),
     ("status", .str "search_completed"),
     ("current_agent", .str "Agent Search Strategist")]) hst ls hls rfl
  have hlog := add_log_eq "Agent Search Strategist" "agent://search-strategist"
    "executed_searches" now
    [("queries_processed", .num acc.processed),
     ("new_results", .num acc.newCount)]
    (update_state store
      [("search_results", .arr acc.results),
       ("search_queries", .arr acc.queries),
       ("iteration", .num (j + 1)),
       ("status", .str "search_completed"),
       ("current_agent", .str "Agent Search Strategist")]) ls hl
  simp only [execute_search, hreq, hs1, hs2, hs3, hi, ← hacc, hlog]
  refine ⟨_, _, rfl, ?_⟩
  have hg1 : GoodState (j + 1) (dictUpdate st
      [("search_results", .arr acc.results),
       ("search_queries", .arr acc.queries),
       ("iteration", .num (j + 1)),
       ("status", .str "search_completed"),
       ("current_agent", .str "Agent Search Strategist")]) := by
    obtain ⟨xs4, hx4⟩ := hg.kf
    obtain ⟨q1, hq1⟩ := hg.quality
    obtain ⟨q2, hq2⟩ := hg.maxiter
    exact ⟨by rw [lookup_dictUpdate]; rfl,
      ⟨qs, by rw [lookup_dictUpdate]; exact hqs⟩,
      ⟨_, by rw [lookup_dictUpdate]; rfl⟩,
      ⟨_, by rw [lookup_dictUpdate]; rfl⟩,
      ⟨xs4, by rw [lookup_dictUpdate]; exact hx4⟩,
      ⟨ls, by rw [lookup_dictUpdate]; exact hls⟩,
      ⟨q1, by rw [lookup_dictUpdate]; exact hq1⟩,
      ⟨q2, by rw [lookup_dictUpdate]; exact hq2⟩⟩
  have hgd : (update_state store
      [("search_results", .arr acc.results),
       ("search_queries", .arr acc.queries),
       ("iteration", .num (j + 1)),
       ("status", .str "search_completed"),
       ("current_agent", .str "Agent Search Strategist")]).getD [] =
      dictUpdate st
      [("search_results", .arr acc.results),
       ("search_queries", .arr acc.queries),
       ("iteration", .num (j + 1)),
       ("status", .str "search_completed"),
       ("current_agent", .str "Agent Search Strategist")] := by
    rw [hst]; rfl
  rw [hgd]
  exact goodState_addLog _ hg1

theorem analyze_results_good (llm now : String) (params : JObj)
    (store : Option TaskMap) (st : TaskMap) (j : ℚ)
    (htid : jTruthy (jGetD params "task_id" .null) = true)
    (hst : store = some st) (hg : GoodState j st) :
    ∃ res st', analyze_results llm params now store = (.ok res, some st') ∧
      GoodState j st' := by
  obtain ⟨ls, hls⟩ := hg.logs
  obtain ⟨kfs, hkfs⟩ := hg.kf
  obtain ⟨srs, hsrs⟩ := hg.sr
  have hne := lookup_isEmpty_false hg.iter
  have hreq := requireTask_ok htid hst hne
  have hs1 : asArr (jGetD st "search_results" (.arr [])) = .ok srs := by
    simp [asArr, jGetD, hsrs]
  have hs2 : asArr (jGetD st "key_findings" (.arr [])) = .ok kfs := by
    simp [asArr, jGetD, hkfs]
  set fq : List String × ℚ :=
    (if srs.isEmpty then (["No data available for analysis"], (0 : ℚ))
     else
       ((parseNumberedLines llm 5),
        min (((parseNumberedLines llm 5).length : ℚ) * 0.15 +
          (srs.length : ℚ) * 0.02) 1)) with hfq
  have hl := update_state_agentLogs (u :=
    [("key_findings", .arr (kfs ++ fq.1.map .str)),
     ("quality_score", .num fq.2),
     ("status", .str "analysis_completed"),
     ("current_agent", .str "Dr. Data Analyst")]) hst ls hls rfl
  have hlog := add_log_eq "Dr. Data Analyst" "agent://data-analyst"
    "analyzed_data" now
    [("findings_extracted", .num fq.1.length),
     ("quality_score", .num fq.2)]
    (update_state store
      [("key_findings", .arr (kfs ++ fq.1.map .str)),
       ("quality_score", .num fq.2),
       ("status", .str "analysis_completed"),
       ("current_agent", .str "Dr. Data Analyst")]) ls hl
  simp only [analyze_results, hreq, hs1, hs2, ← hfq, hlog]
  refine ⟨_, _, rfl, ?_⟩
  have hg1 : GoodState j (dictUpdate st
      [("key_findings", .arr (kfs ++ fq.1.map .str)),
       ("quality_score", .num fq.2),
       ("status", .str "analysis_completed"),
       ("current_agent", .str "Dr. Data Analyst")]) := by
    obtain ⟨xs1, hx1⟩ := hg.rq
    obtain ⟨xs2, hx2⟩ := hg.sq
    obtain ⟨q2, hq2⟩ := hg.maxiter
    exact ⟨by rw [lookup_dictUpdate]; exact hg.iter,
      ⟨xs1, by rw [lookup_dictUpdate]; exact hx1⟩,
      ⟨xs2, by rw [lookup_dictUpdate]; exact hx2⟩,
      ⟨srs, by rw [lookup_dictUpdate]; exact hsrs⟩,
      ⟨_, by rw [lookup_dictUpdate]; rfl⟩,
      ⟨ls, by rw [lookup_dictUpdate]; exact hls⟩,
      ⟨_, by rw [lookup_dictUpdate]; rfl⟩,
      ⟨q2, by rw [lookup_dictUpdate]; exact hq2⟩⟩
  have hgd : (update_state store
      [("key_findings", .arr (kfs ++ fq.1.map .str)),
       ("quality_score", .num fq.2),
       ("status", .str "analysis_completed"),
       ("current_agent", .str "Dr. Data Analyst")]).getD [] =
      dictUpdate st
      [("key_findings", .arr (kfs ++ fq.1.map .str)),
       ("quality_score", .num fq.2),
       ("status", .str "analysis_completed"),
       ("current_agent", .str "Dr. Data Analyst")] := by
    rw [hst]; rfl
  rw [hgd]
  exact goodState_addLog _ hg1



theorem generate_report_good (llm now : String) (params : JObj)
    (store : Option TaskMap) (st : TaskMap) (j : ℚ)
    (htid : jTruthy (jGetD params "task_id" .null) = true)
    (hst : store = some st) (hg : GoodState j st) :
    ∃ res st', generate_report llm params now store = (.ok res, some st') ∧
      GoodState j st' := by
  obtain ⟨ls, hls⟩ := hg.logs
  obtain ⟨qs, hqs⟩ := hg.rq
  obtain ⟨kfs, hkfs⟩ := hg.kf
  obtain ⟨srs, hsrs⟩ := hg.sr
  obtain ⟨qv, hqv⟩ := hg.quality
  have hne := lookup_isEmpty_false hg.iter
  have hreq := requireTask_ok htid hst hne
  have hs1 : asArr (jGetD st "research_questions" (.arr [])) = .ok qs := by
    simp [asArr, jGetD, hqs]
  have hs2 : asArr (jGetD st "key_findings" (.arr [])) = .ok kfs := by
    simp [asArr, jGetD, hkfs]
  have hs3 : asArr (jGetD st "search_results" (.arr [])) = .ok srs := by
    simp [asArr, jGetD, hsrs]
  have hs4 : asNum (jGetD st "quality_score" (.num 0)) = .ok qv := by
    simp [asNum, jGetD, hqv]
  set report := llm ++ reportFooter st now qs kfs srs qv with hrep
  have hl := update_state_agentLogs (u :=
    [("final_report", .str report),
     ("status", .str "report_completed"),
     ("current_agent", .str "Dr. Report Writer")]) hst ls hls rfl
  have hlog := add_log_eq "Dr. Report Writer" "agent://report-writer"
    "generated_report" now
    [("report_length", .num report.length)]
    (update_state store
      [("final_report", .str report),
       ("status", .str "report_completed"),
       ("current_agent", .str "Dr. Report Writer")]) ls hl
  simp only [generate_report, hreq, hs1, hs2, hs3, hs4, ← hrep, hlog]
  refine ⟨_, _, rfl, ?_⟩
  have hg1 : GoodState j (dictUpdate st
      [("final_report", .str report),
       ("status", .str "report_completed"),
       ("current_agent", .str "Dr. Report Writer")]) := by
    obtain ⟨xs2, hx2⟩ := hg.sq
    obtain ⟨q2, hq2⟩ := hg.maxiter
    exact ⟨by rw [lookup_dictUpdate]; exact hg.iter,
      ⟨qs, by rw [lookup_dictUpdate]; exact hqs⟩,
      ⟨xs2, by rw [lookup_dictUpdate]; exact hx2⟩,
      ⟨srs, by rw [lookup_dictUpdate]; exact hsrs⟩,
      ⟨kfs, by rw [lookup_dictUpdate]; exact hkfs⟩,
      ⟨ls, by rw [lookup_dictUpdate]; exact hls⟩,
      ⟨qv, by rw [lookup_dictUpdate]; exact hqv⟩,
      ⟨q2, by rw [lookup_dictUpdate]; exact hq2⟩⟩
  have hgd : (update_state store
      [("final_report", .str report),
       ("status", .str "report_completed"),
       ("current_agent", .str "Dr. Report Writer")]).getD [] =
      dictUpdate st
      [("final_report", .str report),
       ("status", .str "report_completed"),
       ("current_agent", .str "Dr. Report Writer")] := by
    rw [hst]; rfl
  rw [hgd]
  exact goodState_addLog _ hg1



theorem realEnv_action_ok (o : Oracles) (n : Nat) (uri action : String)
    (params : JObj) (store : Option TaskMap) (res : JObj)
    (st' : Option TaskMap)
    (hE : (realAgent o n uri).handle action params [] store = (.ok res, st')) :
    realEnv o n uri action params store =
      (.actionResponse action res .completed none [], st') := by
  simp [realEnv, process_message, handleActionRequest, hE]

theorem doStep_real_ok (o : Oracles) (uri action : String) (params : JObj)
    (sl al : String) (w : WS) (res : JObj) (st' : Option TaskMap)
    (hE : (realAgent o w.calls uri).handle action params []
        (update_state w.store
          [("status", .str sl), ("current_agent", .str al)]) = (.ok res, st')) :
    doStep (realEnv o) uri action params sl al w =
      ({ store := st',
         events := w.events ++
           [.write [("status", .str sl), ("current_agent", .str al)],
            .call uri action (.actionResponse action res .completed none [])],
         calls := w.calls + 1 }, .ok res) := by
  simp [doStep, doUpdate,
    realEnv_action_ok o w.calls uri action params _ res st' hE,
    checkActionResponse]

theorem realAgent_topicRefiner (o : Oracles) (n : Nat) :
    realAgent o n "agent://topic-refiner" =
      topicRefinerAgent (o.llm n) (o.now n) := rfl

theorem realAgent_questionArchitect (o : Oracles) (n : Nat) :
    realAgent o n "agent://question-architect" =
      questionArchitectAgent (o.llm n) (o.now n) := rfl

theorem realAgent_searchStrategist (o : Oracles) (n : Nat) :
    realAgent o n "agent://search-strategist" =
      searchStrategistAgent (o.llm n) (o.search n) (o.now n) := rfl

theorem realAgent_dataAnalyst (o : Oracles) (n : Nat) :
    realAgent o n "agent://data-analyst" =
      dataAnalystAgent (o.llm n) (o.now n) := rfl

theorem realAgent_reportWriter (o : Oracles) (n : Nat) :
    realAgent o n "agent://report-writer" =
      reportWriterAgent (o.llm n) (o.now n) := rfl



theorem loopBody_real (o : Oracles) (tid : String) (htid : tid ≠ "")
    (w : WS) (st : TaskMap) (j : ℚ)
    (hst : w.store = some st) (hg : GoodState j st) :
    ∃ evs st', loopBody (realEnv o) tid w =
      ({ store := some st', events := w.events ++ evs, calls := w.calls + 3 },
       .ok ()) ∧
      GoodState (j + 1) st' ∧ decidesOf evs = [] := by
  have htidp : jTruthy (jGetD [("task_id", .str tid)] "task_id" .null) = true := by
    simp [jTruthy, jGetD, List.lookup, htid]
  have htidp2 : jTruthy (jGetD
      [("task_id", .str tid), ("max_results", .num 2)] "task_id" .null) = true := by
    simp [jTruthy, jGetD, List.lookup, htid]
  -- step: question architect
  have hstoreA : update_state w.store
      [("status", .str "generating_questions"),
       ("current_agent", .str "Prof. Question Architect")] =
      some (dictUpdate st
        [("status", .str "generating_questions"),
         ("current_agent", .str "Prof. Question Architect")]) := by
    rw [hst]; rfl
  have hgA : GoodState j (dictUpdate st
      [("status", .str "generating_questions"),
       ("current_agent", .str "Prof. Question Architect")]) :=
    goodState_update _ hg rfl rfl rfl rfl rfl rfl rfl rfl
  obtain ⟨resA, stA, hA, hgA'⟩ := generate_questions_good
    (o.llm w.calls) (o.now w.calls) [("task_id", .str tid)] _ _ j
    htidp hstoreA hgA
  have hEA : (realAgent o w.calls "agent://question-architect").handle
      "generate_questions" [("task_id", .str tid)] []
      (update_state w.store
        [("status", .str "generating_questions"),
         ("current_agent", .str "Prof. Question Architect")]) =
      (.ok resA, some stA) := hA
  have hDA := doStep_real_ok o "agent://question-architect"
    "generate_questions" [("task_id", .str tid)]
    "generating_questions" "Prof. Question Architect" w resA (some stA) hEA
  -- step: search strategist, on the state the previous step left
  have hstoreB : update_state (some stA)
      [("status", .str "searching"),
       ("current_agent", .str "Agent Search Strategist")] =
      some (dictUpdate stA
        [("status", .str "searching"),
         ("current_agent", .str "Agent Search Strategist")]) := rfl
  have hgB : GoodState j (dictUpdate stA
      [("status", .str "searching"),
       ("current_agent", .str "Agent Search Strategist")]) :=
    goodState_update _ hgA' rfl rfl rfl rfl rfl rfl rfl rfl
  obtain ⟨resB, stB, hB, hgB'⟩ := execute_search_good
    (o.search (w.calls + 1)) (o.now (w.calls + 1))
    [("task_id", .str tid), ("max_results", .num 2)] _ _ j
    htidp2 hstoreB hgB
  -- step: data analyst
  have hstoreC : update_state (some stB)
      [("status", .str "analyzing"),
       ("current_agent", .str "Dr. Data Analyst")] =
      some (dictUpdate stB
        [("status", .str "analyzing"),
         ("current_agent", .str "Dr. Data Analyst")]) := rfl
  have hgC : GoodState (j + 1) (dictUpdate stB
      [("status", .str "analyzing"),
       ("current_agent", .str "Dr. Data Analyst")]) :=
    goodState_update _ hgB' rfl rfl rfl rfl rfl rfl rfl rfl
  obtain ⟨resC, stC, hC, hgC'⟩ := analyze_results_good
    (o.llm (w.calls + 2)) (o.now (w.calls + 2)) [("task_id", .str tid)] _ _
    (j + 1) htidp hstoreC hgC
  refine ⟨[.write [("status", .str "generating_questions"),
            ("current_agent", .str "Prof. Question Architect")],
           .call "agent://question-architect" "generate_questions"
             (.actionResponse "generate_questions" resA .completed none []),
           .write [("status", .str "searching"),
            ("current_agent", .str "Agent Search Strategist")],
           .call "agent://search-strategist" "execute_search"
             (.actionResponse "execute_search" resB .completed none []),
           .write [("status", .str "analyzing"),
            ("current_agent", .str "Dr. Data Analyst")],
           .call "agent://data-analyst" "analyze_results"
             (.actionResponse "analyze_results" resC .completed none [])],
    stC, ?_, hgC', rfl⟩
  have hDB := doStep_real_ok o "agent://search-strategist" "execute_search"
    [("task_id", .str tid), ("max_results", .num 2)]
    "searching" "Agent Search Strategist"
    { store := some stA,
      events := w.events ++
        [.write [("status", .str "generating_questions"),
          ("current_agent", .str "Prof. Question Architect")],
         .call "agent://question-architect" "generate_questions"
           (.actionResponse "generate_questions" resA .completed none [])],
      calls := w.calls + 1 } resB (some stB) hB
  have hDC := doStep_real_ok o "agent://data-analyst" "analyze_results"
    [("task_id", .str tid)] "analyzing" "Dr. Data Analyst"
    { store := some stB,
      events := (w.events ++
        [.write [("status", .str "generating_questions"),
          ("current_agent", .str "Prof. Question Architect")],
         .call "agent://question-architect" "generate_questions"
           (.actionResponse "generate_questions" resA .completed none [])]) ++
        [.write [("status", .str "searching"),
          ("current_agent", .str "Agent Search Strategist")],
         .call "agent://search-strategist" "execute_search"
           (.actionResponse "execute_search" resB .completed none [])],
      calls := w.calls + 1 + 1 } resC (some stC) hC
  simp only [loopBody, bindStep, hDA, hDB, hDC]
  simp [List.append_assoc]

theorem should_continue_ok {st : TaskMap} {j : ℚ} (hg : GoodState j st) :
    ∃ dec, should_continue (some st) = .ok dec := by
  obtain ⟨mi, hmi⟩ := hg.maxiter
  obtain ⟨q, hq⟩ := hg.quality
  obtain ⟨kf, hkf⟩ := hg.kf
  simp only [should_continue, jGetD, hg.iter, hmi, hq, hkf, asNum, asLen,
    Option.getD, ok_bind]
  split_ifs <;> exact ⟨_, rfl⟩

theorem researchLoop_real (o : Oracles) (tid : String) (htid : tid ≠ "") :
    ∀ (fuel : Nat) (w : WS) (st : TaskMap) (j : ℚ),
    w.store = some st → GoodState j st →
    ∃ evs w', researchLoop (realEnv o) tid fuel w = (w', .ok ()) ∧
      w'.events = w.events ++ evs ∧
      (∃ st' j', w'.store = some st' ∧ GoodState j' st') ∧
      ∀ (n : Nat) (ds : String × Option TaskMap),
        (decidesOf evs)[n]? = some ds →
        ∃ stt, ds.2 = some stt ∧
          stt.lookup "iteration" = some (.num (j + n + 1)) := by
  intro fuel
  induction fuel with
  | zero =>
    intro w st j hst hg
    refine ⟨[], w, rfl, by simp, ⟨st, j, hst, hg⟩, ?_⟩
    intro n ds hds
    simp [decidesOf] at hds
  | succ fuel ih =>
    intro w st j hst hg
    obtain ⟨evs1, st1, hLB, hg1, hdec1⟩ := loopBody_real o tid htid w st j hst hg
    obtain ⟨dec, hdec⟩ := should_continue_ok hg1
    have hDS : decideStep
        { store := some st1, events := w.events ++ evs1, calls := w.calls + 3 } =
        ({ store := some st1,
           events := (w.events ++ evs1) ++ [.decide dec (some st1)],
           calls := w.calls + 3 }, .ok dec) := by
      simp [decideStep, hdec]
    by_cases hfin : dec = "finalize"
    · refine ⟨evs1 ++ [.decide dec (some st1)],
        { store := some st1,
          events := (w.events ++ evs1) ++ [.decide dec (some st1)],
          calls := w.calls + 3 }, ?_, by simp, ⟨st1, j + 1, rfl, hg1⟩, ?_⟩
      · simp [researchLoop, bindStep, hLB, hDS, hfin]
      · intro n ds hds
        simp only [decidesOf, List.filterMap_append, hdec1] at hds
        simp only [decidesOf] at hdec1
        rw [hdec1] at hds
        simp [List.filterMap] at hds
        cases n with
        | zero =>
          simp at hds
          refine ⟨st1, by simp [← hds], ?_⟩
          have h01 : (j + (0 : Nat) + 1 : ℚ) = j + 1 := by push_cast; ring
          rw [h01]
          exact hg1.iter
        | succ m => simp at hds
    · refine ?_
      obtain ⟨evs2, w3, hRL, hev3, hstore3, hchars⟩ := ih
        { store := some st1,
          events := (w.events ++ evs1) ++ [.decide dec (some st1)],
          calls := w.calls + 3 } st1 (j + 1) rfl hg1
      refine ⟨evs1 ++ [.decide dec (some st1)] ++ evs2, w3, ?_, ?_, hstore3, ?_⟩
      · simp only [researchLoop, bindStep, hLB, hDS, if_neg hfin]
        exact hRL
      · rw [hev3]
        simp
      · intro n ds hds
        simp only [decidesOf, List.filterMap_append] at hds
        simp only [decidesOf] at hdec1
        rw [hdec1] at hds
        simp only [List.nil_append, List.filterMap] at hds
        cases n with
        | zero =>
          simp at hds
          refine ⟨st1, by simp [← hds], ?_⟩
          have h01 : (j + (0 : Nat) + 1 : ℚ) = j + 1 := by push_cast; ring
          rw [h01]
          exact hg1.iter
        | succ m =>
          have hds' : (decidesOf evs2)[m]? = some ds := by
            simpa using hds
          obtain ⟨stt, hstt, hiter⟩ := hchars m ds hds'
          refine ⟨stt, hstt, ?_⟩
          rw [hiter]
          have : (j + 1 + m + 1 : ℚ) = j + (m + 1 : Nat) + 1 := by
            push_cast; ring
          rw [this]


theorem initial_goodState (tid topic : String) (mi : ℚ) :
    GoodState 0 (initial_state tid topic mi) :=
  ⟨rfl, ⟨[], rfl⟩, ⟨[], rfl⟩, ⟨[], rfl⟩, ⟨[], rfl⟩, ⟨[], rfl⟩,
   ⟨0, rfl⟩, ⟨mi, rfl⟩⟩

theorem run_real_decides (o : Oracles) (tid topic : String) (mi : ℚ)
    (htid : tid ≠ "") :
    ∀ (n : Nat) (ds : String × Option TaskMap),
      (decidesOf (run_workflow (realEnv o) tid
        (update_state none (initial_state tid topic mi))).1.events)[n]? =
        some ds →
      ∃ stt, ds.2 = some stt ∧
        stt.lookup "iteration" = some (.num (n + 1)) := by
  have hstore0 : update_state none (initial_state tid topic mi) =
      some (initial_state tid topic mi) := by
    simp [update_state, dictUpdate_nil]
  have hg0 := initial_goodState tid topic mi
  have htidp : jTruthy (jGetD [("task_id", .str tid)] "task_id" .null) = true := by
    simp [jTruthy, jGetD, List.lookup, htid]
  -- topic refiner step
  have hstoreA : update_state (some (initial_state tid topic mi))
      [("status", .str "refining_topic"),
       ("current_agent", .str "Dr. Topic Refiner")] =
      some (dictUpdate (initial_state tid topic mi)
        [("status", .str "refining_topic"),
         ("current_agent", .str "Dr. Topic Refiner")]) := rfl
  have hgA : GoodState 0 (dictUpdate (initial_state tid topic mi)
      [("status", .str "refining_topic"),
       ("current_agent", .str "Dr. Topic Refiner")]) :=
    goodState_update _ hg0 rfl rfl rfl rfl rfl rfl rfl rfl
  obtain ⟨res1, st1, h1, hg1⟩ := refine_topic_good (o.llm 0) (o.now 0)
    [("task_id", .str tid)] _ _ 0 htidp hstoreA hgA
  have hD1 := doStep_real_ok o "agent://topic-refiner" "refine_topic"
    [("task_id", .str tid)] "refining_topic" "Dr. Topic Refiner"
    { store := some (initial_state tid topic mi), events := [], calls := 0 }
    res1 (some st1) h1
  dsimp only at hD1
  simp only [List.nil_append] at hD1
  -- the max_iterations snapshot read
  have hmi : asNum (jGetD (initial_state tid topic mi)
      "max_iterations" (.num 2)) = .ok mi := rfl
  -- the loop
  obtain ⟨evs2, w2, hRL, hev2, ⟨st2, j2, hst2, hg2⟩, hchars⟩ :=
    researchLoop_real o tid htid (Int.toNat ⌈mi⌉)
      { store := some st1,
        events := [.write [("status", .str "refining_topic"),
            ("current_agent", .str "Dr. Topic Refiner")],
          .call "agent://topic-refiner" "refine_topic"
            (.actionResponse "refine_topic" res1 .completed none [])],
        calls := 1 } st1 0 rfl hg1
  dsimp only at hev2
  -- report writer step
  have hstoreC : update_state w2.store
      [("status", .str "generating_report"),
       ("current_agent", .str "Dr. Report Writer")] =
      some (dictUpdate st2
        [("status", .str "generating_report"),
         ("current_agent", .str "Dr. Report Writer")]) := by
    rw [hst2]; rfl
  have hgC : GoodState j2 (dictUpdate st2
      [("status", .str "generating_report"),
       ("current_agent", .str "Dr. Report Writer")]) :=
    goodState_update _ hg2 rfl rfl rfl rfl rfl rfl rfl rfl
  obtain ⟨res3, st3, h3, hg3⟩ := generate_report_good
    (o.llm w2.calls) (o.now w2.calls) [("task_id", .str tid)] _ _ j2
    htidp hstoreC hgC
  have hD3 := doStep_real_ok o "agent://report-writer" "generate_report"
    [("task_id", .str tid)] "generating_report" "Dr. Report Writer"
    w2 res3 (some st3) h3
  -- assemble the trace
  have hT : (run_workflow (realEnv o) tid
      (update_state none (initial_state tid topic mi))).1.events =
      ([.write [("status", .str "refining_topic"),
          ("current_agent", .str "Dr. Topic Refiner")],
        .call "agent://topic-refiner" "refine_topic"
          (.actionResponse "refine_topic" res1 .completed none [])] ++ evs2) ++
      [.write [("status", .str "generating_report"),
          ("current_agent", .str "Dr. Report Writer")],
       .call "agent://report-writer" "generate_report"
         (.actionResponse "generate_report" res3 .completed none []),
       .write [("status", .str "completed")]] := by
    simp only [run_workflow, workflowBody, wfStep, bindStep, hstore0, hD1,
      hmi, hRL, hD3, doUpdate]
    rw [hev2]
    simp
  intro n ds hds
  rw [hT] at hds
  have hdec : decidesOf
      (([.write [("status", .str "refining_topic"),
          ("current_agent", .str "Dr. Topic Refiner")],
        .call "agent://topic-refiner" "refine_topic"
          (.actionResponse "refine_topic" res1 .completed none [])] ++ evs2) ++
      [.write [("status", .str "generating_report"),
          ("current_agent", .str "Dr. Report Writer")],
       .call "agent://report-writer" "generate_report"
         (.actionResponse "generate_report" res3 .completed none []),
       .write [("status", .str "completed")]]) = decidesOf evs2 := by
    simp [decidesOf, List.filterMap_append, List.filterMap]
  rw [hdec] at hds
  obtain ⟨stt, hstt, hiter⟩ := hchars n ds hds
  refine ⟨stt, hstt, ?_⟩
  rw [hiter]
  have : ((0 : ℚ) + n + 1) = n + 1 := by ring
  rw [this]


theorem add_log_inv {an ai ac now : String} {data : JObj}
    {store store2 : Option TaskMap}
    (h : add_log an ai ac now data store = .ok store2) :
    ∃ l, store2 = some (dictUpdate (store.getD [])
      [("agent_logs", .arr l)]) := by
  simp only [add_log] at h
  split at h
  · injection h with h
    exact ⟨_, h.symm⟩
  · simp at h

theorem storeLookup_update_state (store : Option TaskMap) (u : JObj)
    (k : String) (hu : u.lookup k = none) :
    storeLookup (update_state store u) k = storeLookup store k := by
  show (dictUpdate (store.getD []) u).lookup k = _
  rw [lookup_dictUpdate, hu]
  rfl

theorem storeLookup_double_update (store : Option TaskMap) (u : JObj)
    (l : List JValue) (k : String) (hu : u.lookup k = none)
    (hk : (k == "agent_logs") = false) :
    storeLookup (some (dictUpdate ((update_state store u).getD [])
      [("agent_logs", .arr l)])) k = storeLookup store k := by
  show (dictUpdate (dictUpdate (store.getD []) u) _).lookup k = _
  rw [lookup_dictUpdate]
  simp only [List.lookup, hk]
  rw [lookup_dictUpdate, hu]
  rfl

theorem execute_search_increments
    (search : String → Option (List (String × String)))
    (params : JObj) (now : String) (store : Option TaskMap)
    (res : JObj) (st' : Option TaskMap)
    (h : execute_search search params now store = (.ok res, st')) :
    ∃ st i, store = some st ∧
      asNum (jGetD st "iteration" (.num 0)) = .ok i ∧
      storeLookup st' "iteration" = some (.num (i + 1)) := by
  unfold execute_search at h
  cases h1 : requireTask params store with
  | error e => simp only [h1] at h; simp at h
  | ok st =>
    simp only [h1] at h
    cases h2 : asArr (jGetD st "search_results" (.arr [])) with
    | error e => simp only [h2] at h; simp at h
    | ok r0 =>
      simp only [h2] at h
      cases h3 : asArr (jGetD st "search_queries" (.arr [])) with
      | error e => simp only [h3] at h; simp at h
      | ok q0 =>
        simp only [h3] at h
        cases h4 : asArr (jGetD st "research_questions" (.arr [])) with
        | error e => simp only [h4] at h; simp at h
        | ok qs =>
          simp only [h4] at h
          cases h5 : asNum (jGetD st "iteration" (.num 0)) with
          | error e => simp only [h5] at h; simp at h
          | ok i =>
            simp only [h5] at h
            refine ⟨st, i, requireTask_eq h1, h5, ?_⟩
            split at h
            · simp at h
            · rename_i store2 heq
              obtain ⟨l, hl⟩ := add_log_inv heq
              have hst' : st' = store2 := by
                have hsnd := congrArg Prod.snd h
                simpa using hsnd.symm
              rw [hst', hl]
              show (dictUpdate (dictUpdate (store.getD []) _) _).lookup
                "iteration" = _
              rw [lookup_dictUpdate]
              simp only [List.lookup]
              rw [lookup_dictUpdate]
              rfl

theorem refine_topic_preserves (llm : String) (params : JObj)
    (now : String) (store : Option TaskMap) :
    storeLookup (refine_topic llm params now store).2 "iteration" =
      storeLookup store "iteration" := by
  unfold refine_topic
  cases h1 : requireTask params store with
  | error e => rfl
  | ok st =>
    simp only [h1]
    cases h2 : add_log "Dr. Topic Refiner" "agent://topic-refiner"
        "refined_topic" now
        [("input", jGetD st "topic" (.str "")), ("output", .str llm.trim)]
        (update_state store
          [("topic", .str llm.trim), ("status", .str "topic_refined"),
           ("current_agent", .str "Dr. Topic Refiner")]) with
    | error e =>
      simp only [h2]
      exact storeLookup_update_state _ _ _ rfl
    | ok store2 =>
      simp only [h2]
      obtain ⟨l, hl⟩ := add_log_inv h2
      rw [hl]
      exact storeLookup_double_update store _ l "iteration" rfl rfl


theorem generate_questions_preserves (llm : String) (params : JObj)
    (now : String) (store : Option TaskMap) :
    storeLookup (generate_questions llm params now store).2 "iteration" =
      storeLookup store "iteration" := by
  unfold generate_questions
  cases h1 : requireTask params store with
  | error e => rfl
  | ok st =>
    simp only [h1]
    cases h2 : asArr (jGetD st "research_questions" (.arr [])) with
    | error e => simp only [h2]
    | ok prevQ =>
      simp only [h2]
      cases h3 : add_log "Prof. Question Architect" "agent://question-architect"
          "generated_questions" now
          [("count", .num (parseNumberedLines llm 3).length),
           ("questions", .arr ((parseNumberedLines llm 3).map .str))]
          (update_state store
            [("research_questions",
                .arr (prevQ ++ (parseNumberedLines llm 3).map .str)),
             ("status", .str "questions_generated"),
             ("current_agent", .str "Prof. Question Architect")]) with
      | error e =>
        simp only [h3]
        exact storeLookup_update_state _ _ _ rfl
      | ok store2 =>
        simp only [h3]
        obtain ⟨l, hl⟩ := add_log_inv h3
        rw [hl]
        exact storeLookup_double_update store _ l "iteration" rfl rfl

theorem analyze_results_preserves (llm : String) (params : JObj)
    (now : String) (store : Option TaskMap) :
    storeLookup (analyze_results llm params now store).2 "iteration" =
      storeLookup store "iteration" := by
  unfold analyze_results
  cases h1 : requireTask params store with
  | error e => rfl
  | ok st =>
    simp only [h1]
    cases h2 : asArr (jGetD st "search_results" (.arr [])) with
    | error e => simp only [h2]
    | ok results =>
      simp only [h2]
      cases h3 : asArr (jGetD st "key_findings" (.arr [])) with
      | error e => simp only [h3]
      | ok prevF =>
        simp only [h3]
        split
        · exact storeLookup_update_state _ _ _ rfl
        · rename_i store2 heq
          obtain ⟨l, hl⟩ := add_log_inv heq
          rw [hl]
          exact storeLookup_double_update store _ l "iteration" rfl rfl

theorem generate_report_preserves (llm : String) (params : JObj)
    (now : String) (store : Option TaskMap) :
    storeLookup (generate_report llm params now store).2 "iteration" =
      storeLookup store "iteration" := by
  unfold generate_report
  cases h1 : requireTask params store with
  | error e => rfl
  | ok st =>
    simp only [h1]
    cases h2 : asArr (jGetD st "research_questions" (.arr [])) with
    | error e => simp only [h2]
    | ok qs =>
      simp only [h2]
      cases h3 : asArr (jGetD st "key_findings" (.arr [])) with
      | error e => simp only [h3]
      | ok fs =>
        simp only [h3]
        cases h4 : asArr (jGetD st "search_results" (.arr [])) with
        | error e => simp only [h4]
        | ok srs =>
          simp only [h4]
          cases h5 : asNum (jGetD st "quality_score" (.num 0)) with
          | error e => simp only [h5]
          | ok quality =>
            simp only [h5]
            split
            · exact storeLookup_update_state _ _ _ rfl
            · rename_i store2 heq
              obtain ⟨l, hl⟩ := add_log_inv heq
              rw [hl]
              exact storeLookup_double_update store _ l "iteration" rfl rfl

theorem optimize_query_preserves (llm : String) (params : JObj)
    (store : Option TaskMap) :
    storeLookup (optimize_query llm params store).2 "iteration" =
      storeLookup store "iteration" := by
  simp only [optimize_query]
  split <;> rfl

theorem coordinator_never_writes_iteration (env : Env) (tid : String)
    (store0 : Option TaskMap) (u : TaskMap)
    (hmem : Event.write u ∈ (run_workflow env tid store0).1.events) :
    u.lookup "iteration" = none := by
  obtain ⟨Δ, hev, hcpo, hok, herr, hiter⟩ :=
    stepSpec_wfStep env tid store0 { store := store0, events := [], calls := 0 }
  rcases hb : workflowBody env tid store0 with ⟨w, r⟩
  have hbe : wfStep env tid store0
      { store := store0, events := [], calls := 0 } = (w, r) := hb
  rw [hbe] at hev hok herr
  have hevents : w.events = Δ := by simpa using hev
  cases r with
  | ok a =>
    cases a
    have hT : (run_workflow env tid store0).1.events = Δ := by
      simp [run_workflow, hb, hevents]
    rw [hT] at hmem
    exact noIterWrites_get Δ hiter u hmem
  | error e =>
    have hT : (run_workflow env tid store0).1.events =
        Δ ++ [.write [("status", .str "failed"),
          ("error", .str ("Workflow error: " ++ e))]] := by
      simp [run_workflow, hb, doUpdate, hevents]
    rw [hT] at hmem
    rcases List.mem_append.mp hmem with hmem1 | hmem2
    · exact noIterWrites_get Δ hiter u hmem1
    · simp at hmem2
      subst hmem2
      rfl


/-- C9: the persisted `iteration` field is written only by the search
strategist's `execute_search` handler, which sets it to its previous
stored value plus one, once per successful execution; the other agents'
handlers and the coordinator never write it; hence in a run of the real
pipeline started from the initial record, the store read by the `k`-th
`should_continue` evaluation (right after the `k`-th analysis step)
carries `iteration = k`. -/
theorem iteration_owned_by_search_strategist :
    (∀ (search : String → Option (List (String × String))) (params : JObj)
      (now : String) (store : Option TaskMap) (res : JObj)
      (st' : Option TaskMap),
      execute_search search params now store = (.ok res, st') →
      ∃ st i, store = some st ∧
        asNum (jGetD st "iteration" (.num 0)) = .ok i ∧
        storeLookup st' "iteration" = some (.num (i + 1))) ∧
    (∀ (llm : String) (params : JObj) (now : String)
      (store : Option TaskMap),
      storeLookup (refine_topic llm params now store).2 "iteration" =
        storeLookup store "iteration" ∧
      storeLookup (generate_questions llm params now store).2 "iteration" =
        storeLookup store "iteration" ∧
      storeLookup (analyze_results llm params now store).2 "iteration" =
        storeLookup store "iteration" ∧
      storeLookup (generate_report llm params now store).2 "iteration" =
        storeLookup store "iteration" ∧
      storeLookup (optimize_query llm params store).2 "iteration" =
        storeLookup store "iteration") ∧
    (∀ (env : Env) (tid : String) (store0 : Option TaskMap) (u : TaskMap),
      Event.write u ∈ (run_workflow env tid store0).1.events →
      u.lookup "iteration" = none) ∧
    (∀ (o : Oracles) (tid topic : String) (mi : ℚ), tid ≠ "" →
      ∀ (n : Nat) (ds : String × Option TaskMap),
        (decidesOf (run_workflow (realEnv o) tid
          (update_state none (initial_state tid topic mi))).1.events)[n]? =
          some ds →
        ∃ stt, ds.2 = some stt ∧
          stt.lookup "iteration" = some (.num (n + 1))) := by
  refine ⟨execute_search_increments, ?_, coordinator_never_writes_iteration, ?_⟩
  · intro llm params now store
    exact ⟨refine_topic_preserves llm params now store,
      generate_questions_preserves llm params now store,
      analyze_results_preserves llm params now store,
      generate_report_preserves llm params now store,
      optimize_query_preserves llm params store⟩
  · intro o tid topic mi htid
    exact run_real_decides o tid topic mi htid

/-- C9, witness: the topic refiner leaves the stored iteration unchanged
at a concrete task record. -/
theorem iteration_owned_by_search_strategist_witness :
    storeLookup (refine_topic "refined" [("task_id", .str "t")] "n"
      (some [("iteration", .num 3), ("agent_logs", .arr [])])).2 "iteration" =
    storeLookup (some [("iteration", .num 3), ("agent_logs", .arr [])])
      "iteration" :=
  (iteration_owned_by_search_strategist.2.1 "refined" [("task_id", .str "t")]
    "n" (some [("iteration", .num 3), ("agent_logs", .arr [])])).1

end A2A
